import Mathlib

/-!
Verification development for the dosage-recommendation rule engine
(`dosage-recomandation/` in the repository).

The Python source is shallowly embedded: strings are `String`/`List Char`,
Python floats are modelled as `ℚ` (every numeral the regexes accept is a
decimal fraction, which `ℚ` represents exactly and orders the same way),
Python `None` is `Option`, Python sets are insertion-ordered duplicate-free
lists, and Python dicts are insertion-ordered association lists.

Each regular expression used by the source is embedded as an executable
scanner over `List Char` implementing the same leftmost, non-overlapping
matching discipline (`re.findall` / `re.search` / `re.finditer`).
All scanners compare characters case-insensitively exactly where the source
compiles the pattern with `re.IGNORECASE` or lowercases the haystack first.

External collaborators are modelled as the spec directs:
HTML-to-plain-text flattening (`utils.extract_full_text`, BeautifulSoup) is
the identity on the already-plain monograph text, LLM polishing
(`_polish_sentence` with `qa_pipe` absent) is the identity pass-through the
source itself falls back to, and HTML-rendering report fields are omitted.
The `monograph.state.last_state` module is not present under `src/`; it is a
content-keyed memoisation dict whose hit path returns exactly what the miss
path computes, so it is modelled transparently (recompute every time).
-/

/-! ## Character and string primitives -/

def isAsciiUpper (c : Char) : Bool := 'A' ≤ c && c ≤ 'Z'

def lowerChar (c : Char) : Char :=
  if isAsciiUpper c then Char.ofNat (c.toNat + 32) else c

def lowerStr (s : List Char) : List Char := s.map lowerChar

def isDigitC (c : Char) : Bool := '0' ≤ c && c ≤ '9'

def isAlphaC (c : Char) : Bool := ('a' ≤ c && c ≤ 'z') || ('A' ≤ c && c ≤ 'Z')

/-- Python regex `\w` over ASCII input. -/
def isWordC (c : Char) : Bool := isAlphaC c || isDigitC c || c = '_'

/-- Python regex `\s` over ASCII input: space, tab, newline, CR, VT, FF. -/
def isSpaceC (c : Char) : Bool :=
  c = ' ' || c = '\t' || c = '\n' || c = '\r' || c.toNat = 11 || c.toNat = 12

def isWordOpt : Option Char → Bool
  | none => false
  | some c => isWordC c

/-- A `\b` word boundary holds between two (optional) characters iff exactly
one of the two sides is a word character. -/
def boundaryB (a b : Option Char) : Bool := isWordOpt a != isWordOpt b

/-- Consume a literal (given lowercased); the haystack is compared
case-insensitively.  Returns the rest of the input on success. -/
def eatLit : List Char → List Char → Option (List Char)
  | [], cs => some cs
  | _, [] => none
  | l :: ls, c :: cs => if lowerChar c = l then eatLit ls cs else none

def eatSpaces0 : List Char → Nat × List Char
  | [] => (0, [])
  | c :: cs =>
    if isSpaceC c then
      let (n, r) := eatSpaces0 cs
      (n + 1, r)
    else (0, c :: cs)

/-- At least one whitespace character (`\s+`). -/
def eatSpaces1 (cs : List Char) : Option (Nat × List Char) :=
  let (n, r) := eatSpaces0 cs
  if n = 0 then none else some (n, r)

def eatDigitsAux : List Char → Nat → Nat → Nat × Nat × List Char
  | [], n, v => (n, v, [])
  | c :: cs, n, v =>
    if isDigitC c then eatDigitsAux cs (n + 1) (v * 10 + (c.toNat - 48))
    else (n, v, c :: cs)

/-- `\d+`: returns (consumed length, numeric value, rest). -/
def eatDigits1 (cs : List Char) : Option (Nat × Nat × List Char) :=
  let (n, v, r) := eatDigitsAux cs 0 0
  if n = 0 then none else some (n, v, r)

/-- `\d+(?:\.\d+)?` as an exact rational. -/
def eatNumber (cs : List Char) : Option (Nat × ℚ × List Char) :=
  match eatDigits1 cs with
  | none => none
  | some (n1, ip, r1) =>
    match r1 with
    | '.' :: r2 =>
      match eatDigits1 r2 with
      | some (n2, fp, r3) => some (n1 + 1 + n2, (ip : ℚ) + (fp : ℚ) / ((10 : ℚ) ^ n2), r3)
      | none => some (n1, (ip : ℚ), r1)
    | _ => some (n1, (ip : ℚ), r1)

/-- One step of left-to-right scanning with a matcher that is given the
previous character (for leading `\b` tests) and the current suffix, and
returns the matched length and a payload.  Matches are non-overlapping:
after a match the scan resumes right after it, as `re.finditer` does. -/
def scanGo {α : Type} (m : Option Char → List Char → Option (Nat × α)) :
    Nat → Nat → Option Char → List Char → List (Nat × Nat × α)
  | 0, _, _, _ => []
  | _ + 1, _, _, [] => []
  | fuel + 1, i, prev, c :: rest =>
    match m prev (c :: rest) with
    | some (len, a) =>
      if len = 0 then scanGo m fuel (i + 1) (some c) rest
      else (i, len, a) :: scanGo m fuel (i + len) ((c :: rest).get? (len - 1)) (rest.drop (len - 1))
    | none => scanGo m fuel (i + 1) (some c) rest

/-- All matches of a matcher in a string: (start, length, payload) triples. -/
def scanAll {α : Type} (m : Option Char → List Char → Option (Nat × α)) (s : List Char) :
    List (Nat × Nat × α) :=
  scanGo m (s.length + 1) 0 none s

/-- `re.search`: the leftmost match. -/
def searchFirst {α : Type} (m : Option Char → List Char → Option (Nat × α)) (s : List Char) :
    Option (Nat × Nat × α) :=
  (scanAll m s).head?

/-- `re.findall`: payloads of all matches, leftmost first. -/
def findAllPayload {α : Type} (m : Option Char → List Char → Option (Nat × α)) (s : List Char) :
    List α :=
  (scanAll m s).map (fun t => t.2.2)

/-- Case-insensitive test that `pat` (given lowercased) starts the input. -/
def isPrefixCI (pat cs : List Char) : Bool := (eatLit pat cs).isSome

/-- Case-insensitive substring test (Python `pat in hay` after lowering). -/
def containsSub (pat : List Char) : List Char → Bool
  | [] => pat.isEmpty
  | c :: cs => isPrefixCI pat (c :: cs) || containsSub pat cs

/-- Python `str.strip()` over ASCII whitespace. -/
def stripChars (cs : List Char) : List Char :=
  ((cs.dropWhile isSpaceC).reverse.dropWhile isSpaceC).reverse

def stripS (s : String) : String := String.mk (stripChars s.data)

/-- Python `min` over a list of floats (first minimum wins ties). -/
def listMinQ : List ℚ → Option ℚ
  | [] => none
  | x :: xs => some (xs.foldl (fun a b => if b < a then b else a) x)

/-- Python `max` over a list of floats (first maximum wins ties). -/
def listMaxQ : List ℚ → Option ℚ
  | [] => none
  | x :: xs => some (xs.foldl (fun a b => if a < b then b else a) x)

/-- Membership-checked insertion: the model of adding to a Python `set`
(keeps insertion order, never duplicates). -/
def insertIfAbsent (l : List ℚ) (x : ℚ) : List ℚ :=
  if x ∈ l then l else l ++ [x]

def insertIfAbsentS (l : List String) (x : String) : List String :=
  if x ∈ l then l else l ++ [x]

/-- Python `list(dict.fromkeys(xs))`: deduplicate keeping first occurrences. -/
def dedupKeepFirst (xs : List String) : List String :=
  xs.foldl insertIfAbsentS []

/-- Python string `<`: lexicographic comparison by code point. -/
def strLtB : List Char → List Char → Bool
  | [], [] => false
  | [], _ :: _ => true
  | _ :: _, [] => false
  | a :: as, b :: bs =>
    if a.toNat < b.toNat then true
    else if b.toNat < a.toNat then false
    else strLtB as bs

def strLeB (a b : String) : Bool := !(strLtB b.data a.data)

/-- Python `sorted` on strings. -/
def sortStrings (l : List String) : List String :=
  List.insertionSort (fun a b => strLeB a b = true) l

/-- Python `sorted` on floats. -/
def sortQ (l : List ℚ) : List ℚ :=
  List.insertionSort (· ≤ ·) l

/-- Python `round` (banker's rounding, round half to even) on a
non-negative rational. -/
def pyRound (q : ℚ) : ℤ :=
  let f := Rat.floor q
  let r := q - (f : ℚ)
  if r < 1 / 2 then f
  else if 1 / 2 < r then f + 1
  else if f % 2 = 0 then f else f + 1

/-- Python `s.splitlines()` over ASCII input (`\n`, `\r`, `\r\n`). -/
def splitLinesChars : List Char → List Char → List (List Char)
  | acc, [] => if acc = [] then [] else [acc.reverse]
  | acc, '\r' :: '\n' :: rest => acc.reverse :: splitLinesChars [] rest
  | acc, '\r' :: rest => acc.reverse :: splitLinesChars [] rest
  | acc, '\n' :: rest => acc.reverse :: splitLinesChars [] rest
  | acc, c :: rest => splitLinesChars (c :: acc) rest

def splitLines (s : String) : List (List Char) := splitLinesChars [] s.data

/-- `re.split` with a pattern of the form `(?<=[seps])\s+`: a maximal
whitespace run whose immediately preceding character is in `seps` separates
two pieces.  Mirrors the splitters used for sentences in `dosage.py`
(`seps = [\n, .]`) and `assess.py` (`seps = [., ?, !]`). -/
def splitAfterGo (seps : List Char) : Nat → List Char → Option Char → List Char →
    List (List Char)
  | _, acc, _, [] => [acc.reverse]
  | 0, acc, _, rest => [(acc.reverse ++ rest)]
  | fuel + 1, acc, prev, c :: rest =>
    if isSpaceC c && (match prev with | some p => seps.contains p | none => false) then
      let (n, r) := eatSpaces0 (c :: rest)
      acc.reverse :: splitAfterGo seps fuel [] ((c :: rest).get? (n - 1)) r
    else
      splitAfterGo seps fuel (c :: acc) (some c) rest

def splitAfter (seps : List Char) (s : List Char) : List (List Char) :=
  splitAfterGo seps (s.length + 1) [] none s

/-! ## Embedded regular expressions (`monograph/regexes.py` and friends)

Each matcher matches at the start of the given suffix, receiving the
previous character for leading `\b` tests, and returns the matched length
plus the captured payload.  Greedy subpatterns in the source regexes are
deterministic here; the few places where Python's backtracking can matter
(optional tails before `\b`, bounded repetitions) are spelled out
explicitly. -/

/-- A literal followed by a `\b` word boundary (the boundary test compares
the literal's last character with the following character). -/
def litB (lit : List Char) (cs : List Char) : Option Nat :=
  match eatLit lit cs with
  | none => none
  | some rest =>
    if boundaryB (cs.get? (lit.length - 1)) rest.head? then some lit.length else none

/-- A sequence of literal words joined by `\s+`. -/
def eatWordsSeq : List (List Char) → List Char → Option (List Char)
  | [], cs => some cs
  | [w], cs => eatLit w cs
  | w :: ws, cs =>
    match eatLit w cs with
    | none => none
    | some r =>
      match eatSpaces1 r with
      | none => none
      | some (_, r2) => eatWordsSeq ws r2

/-- `RE_DOSE = (\d+(?:\.\d+)?)\s*mg\b` (IGNORECASE). -/
def mDose (_prev : Option Char) (cs : List Char) : Option (Nat × ℚ) :=
  match eatNumber cs with
  | none => none
  | some (n1, q, r1) =>
    let (n2, r2) := eatSpaces0 r1
    match eatLit (("mg").data) r2 with
    | none => none
    | some r3 =>
      if boundaryB (some 'g') r3.head? then some (n1 + n2 + 2, q) else none

/-- `RE_DOSE_G = (\d+(?:\.\d+)?)\s*g\b` (IGNORECASE). -/
def mDoseG (_prev : Option Char) (cs : List Char) : Option (Nat × ℚ) :=
  match eatNumber cs with
  | none => none
  | some (n1, q, r1) =>
    let (n2, r2) := eatSpaces0 r1
    match eatLit (("g").data) r2 with
    | none => none
    | some r3 =>
      if boundaryB (some 'g') r3.head? then some (n1 + n2 + 1, q) else none

/-- `RE_DOSE_MCG = (\d+(?:\.\d+)?)\s*mcg\b` (IGNORECASE). -/
def mDoseMcg (_prev : Option Char) (cs : List Char) : Option (Nat × ℚ) :=
  match eatNumber cs with
  | none => none
  | some (n1, q, r1) =>
    let (n2, r2) := eatSpaces0 r1
    match eatLit (("mcg").data) r2 with
    | none => none
    | some r3 =>
      if boundaryB (some 'g') r3.head? then some (n1 + n2 + 3, q) else none

/-- `RE_DOSE_MGKG = (\d+(?:\.\d+)?)\s*mg\s*/\s*kg(?:\s*/\s*day)?\b`
(IGNORECASE).  If the optional `/day` tail matches but the final `\b`
fails, Python backtracks and retries the boundary right after `kg`; both
attempts are spelled out. -/
def mDoseMgKg (_prev : Option Char) (cs : List Char) : Option (Nat × ℚ) :=
  match eatNumber cs with
  | none => none
  | some (n1, q, r1) =>
    let (n2, r2) := eatSpaces0 r1
    match eatLit (("mg").data) r2 with
    | none => none
    | some r3 =>
      let (n3, r4) := eatSpaces0 r3
      match eatLit (("/").data) r4 with
      | none => none
      | some r5 =>
        let (n4, r6) := eatSpaces0 r5
        match eatLit (("kg").data) r6 with
        | none => none
        | some r7 =>
          let base := n1 + n2 + 2 + n3 + 1 + n4 + 2
          let noTail : Option (Nat × ℚ) :=
            if boundaryB (some 'g') r7.head? then some (base, q) else none
          let (n5, r8) := eatSpaces0 r7
          match eatLit (("/").data) r8 with
          | none => noTail
          | some r9 =>
            let (n6, r10) := eatSpaces0 r9
            match eatLit (("day").data) r10 with
            | none => noTail
            | some r11 =>
              if boundaryB (some 'y') r11.head? then some (base + n5 + 1 + n6 + 3, q)
              else noTail

/-- `RE_DOSE_MGML = (\d+(?:\.\d+)?)\s*mg\s*/\s*ml\b` (IGNORECASE). -/
def mDoseMgMl (_prev : Option Char) (cs : List Char) : Option (Nat × ℚ) :=
  match eatNumber cs with
  | none => none
  | some (n1, q, r1) =>
    let (n2, r2) := eatSpaces0 r1
    match eatLit (("mg").data) r2 with
    | none => none
    | some r3 =>
      let (n3, r4) := eatSpaces0 r3
      match eatLit (("/").data) r4 with
      | none => none
      | some r5 =>
        let (n4, r6) := eatSpaces0 r5
        match eatLit (("ml").data) r6 with
        | none => none
        | some r7 =>
          if boundaryB (some 'l') r7.head? then some (n1 + n2 + 2 + n3 + 1 + n4 + 2, q)
          else none

/-- `RE_WV = (\d+(?:\.\d+)?)\s*%\s*w\s*/\s*v\b` (IGNORECASE); only used as
a Boolean `search`. -/
def mWV (_prev : Option Char) (cs : List Char) : Option (Nat × Unit) :=
  match eatNumber cs with
  | none => none
  | some (n1, _, r1) =>
    let (n2, r2) := eatSpaces0 r1
    match eatLit (("%").data) r2 with
    | none => none
    | some r3 =>
      let (n3, r4) := eatSpaces0 r3
      match eatLit (("w").data) r4 with
      | none => none
      | some r5 =>
        let (n4, r6) := eatSpaces0 r5
        match eatLit (("/").data) r6 with
        | none => none
        | some r7 =>
          let (n5, r8) := eatSpaces0 r7
          match eatLit (("v").data) r8 with
          | none => none
          | some r9 =>
            if boundaryB (some 'v') r9.head? then
              some (n1 + n2 + 1 + n3 + 1 + n4 + 1 + n5 + 1, ()) else none

/-- `RE_WW = (\d+(?:\.\d+)?)\s*%\s*w\s*/\s*w\b` (IGNORECASE). -/
def mWW (_prev : Option Char) (cs : List Char) : Option (Nat × Unit) :=
  match eatNumber cs with
  | none => none
  | some (n1, _, r1) =>
    let (n2, r2) := eatSpaces0 r1
    match eatLit (("%").data) r2 with
    | none => none
    | some r3 =>
      let (n3, r4) := eatSpaces0 r3
      match eatLit (("w").data) r4 with
      | none => none
      | some r5 =>
        let (n4, r6) := eatSpaces0 r5
        match eatLit (("/").data) r6 with
        | none => none
        | some r7 =>
          let (n5, r8) := eatSpaces0 r7
          match eatLit (("w").data) r8 with
          | none => none
          | some r9 =>
            if boundaryB (some 'w') r9.head? then
              some (n1 + n2 + 1 + n3 + 1 + n4 + 1 + n5 + 1, ()) else none

/-- The anchored `re.match(r'\s*/\s*(kg|ml)', tail)` test from
`extract_dosage_info` (the tail is lowercased by the caller there; matching
case-insensitively is equivalent). -/
def matchKgMlTail (cs : List Char) : Bool :=
  let (_, r1) := eatSpaces0 cs
  match eatLit (("/").data) r1 with
  | none => false
  | some r2 =>
    let (_, r3) := eatSpaces0 r2
    (eatLit (("kg").data) r3).isSome || (eatLit (("ml").data) r3).isSome

/-- `RE_MAX = \b(max(?:imum)?|do not exceed)\b` (IGNORECASE). -/
def mMax (prev : Option Char) (cs : List Char) : Option (Nat × Unit) :=
  if isWordOpt prev then none
  else
    match litB (("maximum").data) cs with
    | some n => some (n, ())
    | none =>
      match litB (("max").data) cs with
      | some n => some (n, ())
      | none =>
        match litB (("do not exceed").data) cs with
        | some n => some (n, ())
        | none => none

/-- `RE_EVERY_HOURS = (?:every|q)\s*(\d+)\s*(?:hours|hrs|h)\b`
(IGNORECASE). -/
def mEveryHoursInt (_prev : Option Char) (cs : List Char) : Option (Nat × ℕ) :=
  let lead : Option (Nat × List Char) :=
    match eatLit (("every").data) cs with
    | some r => some (5, r)
    | none =>
      match eatLit (("q").data) cs with
      | some r => some (1, r)
      | none => none
  match lead with
  | none => none
  | some (n0, r0) =>
    let (n1, r1) := eatSpaces0 r0
    match eatDigits1 r1 with
    | none => none
    | some (n2, v, r2) =>
      let (n3, r3) := eatSpaces0 r2
      match litB (("hours").data) r3 with
      | some n4 => some (n0 + n1 + n2 + n3 + n4, v)
      | none =>
        match litB (("hrs").data) r3 with
        | some n4 => some (n0 + n1 + n2 + n3 + n4, v)
        | none =>
          match litB (("h").data) r3 with
          | some n4 => some (n0 + n1 + n2 + n3 + n4, v)
          | none => none

/-- `RE_MONITOR = \b(monitor|baseline|check)\b` (IGNORECASE). -/
def mMonitor (prev : Option Char) (cs : List Char) : Option (Nat × Unit) :=
  if isWordOpt prev then none
  else
    match litB (("monitor").data) cs with
    | some n => some (n, ())
    | none =>
      match litB (("baseline").data) cs with
      | some n => some (n, ())
      | none =>
        match litB (("check").data) cs with
        | some n => some (n, ())
        | none => none

/-- `RE_INTERACT =
\b(interact|interaction|concomit|co-?administration|synerg|increas|potentiat)\b`
(IGNORECASE). -/
def mInteract (prev : Option Char) (cs : List Char) : Option (Nat × Unit) :=
  if isWordOpt prev then none
  else
    let alts : List (List Char) :=
      [("interact").data, ("interaction").data, ("concomit").data,
       ("co-administration").data, ("coadministration").data,
       ("synerg").data, ("increas").data, ("potentiat").data]
    match alts.findSome? (fun a => litB a cs) with
    | some n => some (n, ())
    | none => none

/-- The first frequency keyword pattern of the proposed-dose parsers:
`\bonce\b|one time|one-time|daily|per day|every day|\bqd\b|\bq\.d\b`
(the parsers lowercase their input first; matching is case-insensitive
anyway).  Only used as a Boolean `search`, so the reported length of the
successful alternative is immaterial. -/
def mWordFreq1 (prev : Option Char) (cs : List Char) : Option (Nat × Unit) :=
  let lead := !(isWordOpt prev)
  if lead && (litB (("once").data) cs).isSome then some (4, ())
  else if isPrefixCI (("one time").data) cs then some (8, ())
  else if isPrefixCI (("one-time").data) cs then some (8, ())
  else if isPrefixCI (("daily").data) cs then some (5, ())
  else if isPrefixCI (("per day").data) cs then some (7, ())
  else if isPrefixCI (("every day").data) cs then some (9, ())
  else if lead && (litB (("qd").data) cs).isSome then some (2, ())
  else if lead && (litB (("q.d").data) cs).isSome then some (3, ())
  else none

/-- `\btwice\b|two times|two-time|\bbid\b|\bb\.i\.d\b|twice daily`. -/
def mWordFreq2 (prev : Option Char) (cs : List Char) : Option (Nat × Unit) :=
  let lead := !(isWordOpt prev)
  if lead && (litB (("twice").data) cs).isSome then some (5, ())
  else if isPrefixCI (("two times").data) cs then some (9, ())
  else if isPrefixCI (("two-time").data) cs then some (8, ())
  else if lead && (litB (("bid").data) cs).isSome then some (3, ())
  else if lead && (litB (("b.i.d").data) cs).isSome then some (5, ())
  else if isPrefixCI (("twice daily").data) cs then some (11, ())
  else none

/-- `(\d+)\s*(?:x|times|time)\s*(?:a|per)?\s*(?:day|daily|d)?`: everything
after the x/times/time token is optional and can match the empty string, so
the overall match succeeds as soon as that token is found, and group 1 is
the leading digits.  Only used as `search` for group 1. -/
def mNTimes (_prev : Option Char) (cs : List Char) : Option (Nat × ℕ) :=
  match eatDigits1 cs with
  | none => none
  | some (n1, v, r1) =>
    let (n2, r2) := eatSpaces0 r1
    if isPrefixCI (("x").data) r2 then some (n1 + n2 + 1, v)
    else if isPrefixCI (("times").data) r2 then some (n1 + n2 + 5, v)
    else if isPrefixCI (("time").data) r2 then some (n1 + n2 + 4, v)
    else none

/-- `every\s*(\d+(?:\.\d+)?)\s*(?:-?hr|hours|hour|h)\b` with a rational
group; alternatives (and the optional hyphen) are tried in the source
pattern's order, retrying on a failed trailing boundary as Python
backtracking does. -/
def mEveryHoursQ (_prev : Option Char) (cs : List Char) : Option (Nat × ℚ) :=
  match eatLit (("every").data) cs with
  | none => none
  | some r0 =>
    let (n1, r1) := eatSpaces0 r0
    match eatNumber r1 with
    | none => none
    | some (n2, q, r2) =>
      let (n3, r3) := eatSpaces0 r2
      let base := 5 + n1 + n2 + n3
      match litB (("-hr").data) r3 with
      | some n4 => some (base + n4, q)
      | none =>
        match litB (("hr").data) r3 with
        | some n4 => some (base + n4, q)
        | none =>
          match litB (("hours").data) r3 with
          | some n4 => some (base + n4, q)
          | none =>
            match litB (("hour").data) r3 with
            | some n4 => some (base + n4, q)
            | none =>
              match litB (("h").data) r3 with
              | some n4 => some (base + n4, q)
              | none => none

/-- Helper for `mQnH`: backtrack to a single digit of `\d{1,2}`. -/
def mQnHone (a : Char) (r : List Char) : Option (Nat × ℕ) :=
  if isDigitC a then
    match eatLit (("h").data) r with
    | none => none
    | some r3 => if boundaryB (some 'h') r3.head? then some (3, a.toNat - 48) else none
  else none

/-- `\bq(\d{1,2})h\b`: greedy two digits first, backtracking to one. -/
def mQnH (prev : Option Char) (cs : List Char) : Option (Nat × ℕ) :=
  if isWordOpt prev then none
  else
    match eatLit (("q").data) cs with
    | none => none
    | some r1 =>
      match r1 with
      | a :: b :: r2 =>
        if isDigitC a && isDigitC b then
          match eatLit (("h").data) r2 with
          | some r3 =>
            if boundaryB (some 'h') r3.head? then
              some (4, (a.toNat - 48) * 10 + (b.toNat - 48))
            else mQnHone a (b :: r2)
          | none => mQnHone a (b :: r2)
        else mQnHone a (b :: r2)
      | [a] => mQnHone a []
      | [] => none

/-- `([0-9]+(?:\.[0-9]+)?)\s*mg\s*(?:/|per)\s*day` (no word boundaries). -/
def mMgPerDay (_prev : Option Char) (cs : List Char) : Option (Nat × ℚ) :=
  match eatNumber cs with
  | none => none
  | some (n1, q, r1) =>
    let (n2, r2) := eatSpaces0 r1
    match eatLit (("mg").data) r2 with
    | none => none
    | some r3 =>
      let (n3, r4) := eatSpaces0 r3
      let sep : Option (Nat × List Char) :=
        match eatLit (("/").data) r4 with
        | some r5 => some (1, r5)
        | none =>
          match eatLit (("per").data) r4 with
          | some r5 => some (3, r5)
          | none => none
      match sep with
      | none => none
      | some (n4, r5) =>
        let (n5, r6) := eatSpaces0 r5
        match eatLit (("day").data) r6 with
        | none => none
        | some _ => some (n1 + n2 + 2 + n3 + n4 + n5 + 3, q)

/-- The mojibake dash of `assess.py` line 478: the file's bytes decode to
the three characters U+00E2, U+20AC, U+201C. -/
def mojibakeDash : List Char := [Char.ofNat 226, Char.ofNat 8364, Char.ofNat 8220]

/-- `([0-9]+(?:\.[0-9]+)?)\s*(?:-|to|â€“)\s*([0-9]+(?:\.[0-9]+)?)\s*mg\s*(?:/|per)?\s*day`
(IGNORECASE), the explicit daily-range pattern of `assess.py`. -/
def mRangeMgDay (_prev : Option Char) (cs : List Char) : Option (Nat × (ℚ × ℚ)) :=
  match eatNumber cs with
  | none => none
  | some (n1, q1, r1) =>
    let (n2, r2) := eatSpaces0 r1
    let sep : Option (Nat × List Char) :=
      match eatLit (("-").data) r2 with
      | some r3 => some (1, r3)
      | none =>
        match eatLit (("to").data) r2 with
        | some r3 => some (2, r3)
        | none =>
          match eatLit mojibakeDash r2 with
          | some r3 => some (3, r3)
          | none => none
    match sep with
    | none => none
    | some (n3, r3) =>
      let (n4, r4) := eatSpaces0 r3
      match eatNumber r4 with
      | none => none
      | some (n5, q2, r5) =>
        let (n6, r6) := eatSpaces0 r5
        match eatLit (("mg").data) r6 with
        | none => none
        | some r7 =>
          let (n7, r8) := eatSpaces0 r7
          let sep2 : Nat × List Char :=
            match eatLit (("/").data) r8 with
            | some r9 => (1, r9)
            | none =>
              match eatLit (("per").data) r8 with
              | some r9 => (3, r9)
              | none => (0, r8)
          let (n8, r9) := sep2
          let (n9, r10) := eatSpaces0 r9
          match eatLit (("day").data) r10 with
          | none => none
          | some _ =>
            some (n1 + n2 + n3 + n4 + n5 + n6 + 2 + n7 + n8 + n9 + 3, (q1, q2))

/-- `recommend(ed|ed dosage|ed dose|recommended dose|recommended dosage)`
from `_extract_monograph_dose_snippet` (Boolean search). -/
def mRecommended (_prev : Option Char) (cs : List Char) : Option (Nat × Unit) :=
  match eatLit (("recommend").data) cs with
  | none => none
  | some r =>
    if isPrefixCI (("ed").data) r || isPrefixCI (("ed dosage").data) r ||
        isPrefixCI (("ed dose").data) r || isPrefixCI (("recommended dose").data) r ||
        isPrefixCI (("recommended dosage").data) r then
      some (11, ())
    else none

/-- The frequency-token alternation of `_extract_monograph_dose_snippet`:
`(times|time|daily|per day|every|qd|q\d+h|once|twice|q\.d\b|bid|q8h|q12h)`
(Boolean search). -/
def mFreqTokens (_prev : Option Char) (cs : List Char) : Option (Nat × Unit) :=
  if isPrefixCI (("times").data) cs then some (5, ())
  else if isPrefixCI (("time").data) cs then some (4, ())
  else if isPrefixCI (("daily").data) cs then some (5, ())
  else if isPrefixCI (("per day").data) cs then some (7, ())
  else if isPrefixCI (("every").data) cs then some (5, ())
  else if isPrefixCI (("qd").data) cs then some (2, ())
  else
    let qnh : Option (Nat × Unit) :=
      match eatLit (("q").data) cs with
      | none => none
      | some r1 =>
        match eatDigits1 r1 with
        | none => none
        | some (n, _, r2) =>
          match eatLit (("h").data) r2 with
          | none => none
          | some _ => some (n + 2, ())
    match qnh with
    | some x => some x
    | none =>
      if isPrefixCI (("once").data) cs then some (4, ())
      else if isPrefixCI (("twice").data) cs then some (5, ())
      else
        match litB (("q.d").data) cs with
        | some n => some (n, ())
        | none =>
          if isPrefixCI (("bid").data) cs then some (3, ())
          else if isPrefixCI (("q8h").data) cs then some (3, ())
          else if isPrefixCI (("q12h").data) cs then some (4, ())
          else none

/-- `\(([^)]+)\)`: the first non-empty parenthetical, with its content. -/
def mParen (_prev : Option Char) (cs : List Char) : Option (Nat × List Char) :=
  match cs with
  | '(' :: r =>
    let content := r.takeWhile (fun c => c ≠ ')')
    if content.length = 0 then none
    else
      match r.drop content.length with
      | ')' :: _ => some (content.length + 2, content)
      | _ => none
  | _ => none

/-- `\bdivid` (IGNORECASE, Boolean search). -/
def mDivid (prev : Option Char) (cs : List Char) : Option (Nat × Unit) :=
  if isWordOpt prev then none
  else if isPrefixCI (("divid").data) cs then some (5, ()) else none

/-- Boolean `re.search`. -/
def searchB {α : Type} (m : Option Char → List Char → Option (Nat × α)) (s : List Char) : Bool :=
  (searchFirst m s).isSome

/-! ### Allergy-module patterns (`monograph/allergy.py`) -/

/-- `_PATTERNS["contra"]`:
`(contraindicat(?:ed|ion))|(do\s+not\s+use)|(history\s+of\s+severe\s+hypersensitivity)|(anaphylaxi(?:s|es))`
(IGNORECASE, no word boundaries). -/
def mContraSig (_prev : Option Char) (cs : List Char) : Option (Nat × Unit) :=
  if isPrefixCI (("contraindicated").data) cs then some (15, ())
  else if isPrefixCI (("contraindication").data) cs then some (16, ())
  else if (eatWordsSeq [("do").data, ("not").data, ("use").data] cs).isSome then some (10, ())
  else if (eatWordsSeq [("history").data, ("of").data, ("severe").data,
      ("hypersensitivity").data] cs).isSome then some (31, ())
  else if isPrefixCI (("anaphylaxis").data) cs then some (11, ())
  else if isPrefixCI (("anaphylaxies").data) cs then some (12, ())
  else none

/-- `_PATTERNS["hypersens"]`:
`(hypersensitivit(?:y|ies))|(allergy|allergies|allergic\s+reactions?)|(bronchospasm|urticaria|angioedema)`
(IGNORECASE). -/
def mHypersensSig (_prev : Option Char) (cs : List Char) : Option (Nat × Unit) :=
  if isPrefixCI (("hypersensitivity").data) cs then some (16, ())
  else if isPrefixCI (("hypersensitivities").data) cs then some (18, ())
  else if isPrefixCI (("allergy").data) cs then some (7, ())
  else if isPrefixCI (("allergies").data) cs then some (9, ())
  else if (eatWordsSeq [("allergic").data, ("reaction").data] cs).isSome then some (17, ())
  else if isPrefixCI (("bronchospasm").data) cs then some (12, ())
  else if isPrefixCI (("urticaria").data) cs then some (9, ())
  else if isPrefixCI (("angioedema").data) cs then some (10, ())
  else none

/-- `_PATTERNS["nsaid_cross"]`: the four alternatives of the source
pattern, in order — `aspirin[-\s]sensitive`, `aspirin\s+triad`,
`cross[-\s]?react(?:ion|ive|ivity)\s+with\s+other\s+nsaids?` and the long
"patients with asthma, urticaria, ..." phrase (IGNORECASE). -/
def mNsaidCrossSig (_prev : Option Char) (cs : List Char) : Option (Nat × Unit) :=
  let altA : Bool :=
    match eatLit (("aspirin").data) cs with
    | none => false
    | some r =>
      match r with
      | c :: r2 => (c = '-' || isSpaceC c) && isPrefixCI (("sensitive").data) r2
      | [] => false
  if altA then some (17, ())
  else if (eatWordsSeq [("aspirin").data, ("triad").data] cs).isSome then some (13, ())
  else
    let altC : Bool :=
      match eatLit (("cross").data) cs with
      | none => false
      | some r =>
        let r2 :=
          match r with
          | c :: rr => if c = '-' || isSpaceC c then rr else r
          | [] => r
        match eatLit (("react").data) r2 with
        | none => false
        | some r3 =>
          let r4 : Option (List Char) :=
            match eatLit (("ion").data) r3 with
            | some x => some x
            | none =>
              match eatLit (("ive").data) r3 with
              | some x => some x
              | none => eatLit (("ivity").data) r3
          match r4 with
          | none => false
          | some r5 =>
            match eatSpaces1 r5 with
            | none => false
            | some (_, r6) =>
              (eatWordsSeq [("with").data, ("other").data, ("nsaid").data] r6).isSome
    if altC then some (20, ())
    else
      let altD : Bool :=
        let lead : Option (List Char) :=
          match eatLit (("patients").data) cs with
          | some r => some r
          | none => eatLit (("patient").data) cs
        match lead with
        | none => false
        | some r0 =>
          match eatSpaces1 r0 with
          | none => false
          | some (_, r1) =>
            match eatWordsSeq [("with").data, ("asthma").data] r1 with
            | none => false
            | some r2 =>
              match eatLit ((",").data) r2 with
              | none => false
              | some r3 =>
                let (_, r4) := eatSpaces0 r3
                match eatLit (("urticaria").data) r4 with
                | none => false
                | some r5 =>
                  match eatLit ((",").data) r5 with
                  | none => false
                  | some r6 =>
                    let (_, r7) := eatSpaces0 r6
                    match eatWordsSeq [("or").data, ("other").data, ("allergic").data,
                        ("type").data, ("reactions").data, ("after").data, ("taking").data,
                        ("aspirin").data, ("or").data, ("other").data, ("nsaid").data] r7 with
                    | none => false
                    | some _ => true
      if altD then some (40, ()) else none

/-- `\bnsaid[s]?\b|nonsteroidal` (IGNORECASE), the `mentions_nsaid`
heuristic. -/
def mNsaid (prev : Option Char) (cs : List Char) : Option (Nat × Unit) :=
  let lead := !(isWordOpt prev)
  if lead && (litB (("nsaids").data) cs).isSome then some (6, ())
  else if lead && (litB (("nsaid").data) cs).isSome then some (5, ())
  else if isPrefixCI (("nonsteroidal").data) cs then some (12, ())
  else none

/-- `\baspirin\b|\basa\b` (IGNORECASE), the `mentions_aspirin` heuristic. -/
def mAspirin (prev : Option Char) (cs : List Char) : Option (Nat × Unit) :=
  if isWordOpt prev then none
  else
    match litB (("aspirin").data) cs with
    | some n => some (n, ())
    | none =>
      match litB (("asa").data) cs with
      | some n => some (n, ())
      | none => none

/-- `\b(diclofenac|ibuprofen|naproxen|cox-?2|celecoxib)\b` (IGNORECASE),
the NSAID-context drug-name scan of `evaluate_allergies`. -/
def mNsaidDrugs (prev : Option Char) (cs : List Char) : Option (Nat × Unit) :=
  if isWordOpt prev then none
  else
    let alts : List (List Char) :=
      [("diclofenac").data, ("ibuprofen").data, ("naproxen").data,
       ("cox-2").data, ("cox2").data, ("celecoxib").data]
    match alts.findSome? (fun a => litB a cs) with
    | some n => some (n, ())
    | none => none

/-- `\bpenicillin` (IGNORECASE): leading boundary only. -/
def mPenicillin (prev : Option Char) (cs : List Char) : Option (Nat × Unit) :=
  if isWordOpt prev then none
  else if isPrefixCI (("penicillin").data) cs then some (10, ()) else none

/-- `\bcephalosporin` (IGNORECASE). -/
def mCephalosporin (prev : Option Char) (cs : List Char) : Option (Nat × Unit) :=
  if isWordOpt prev then none
  else if isPrefixCI (("cephalosporin").data) cs then some (13, ()) else none

/-- `\bsulfonamid` (IGNORECASE). -/
def mSulfonamid (prev : Option Char) (cs : List Char) : Option (Nat × Unit) :=
  if isWordOpt prev then none
  else if isPrefixCI (("sulfonamid").data) cs then some (10, ()) else none

/-- `peanut|arachis` (IGNORECASE, plain substrings). -/
def mPeanut (_prev : Option Char) (cs : List Char) : Option (Nat × Unit) :=
  if isPrefixCI (("peanut").data) cs then some (6, ())
  else if isPrefixCI (("arachis").data) cs then some (7, ())
  else none

/-- `soy|soya|soybean` (IGNORECASE). -/
def mSoy (_prev : Option Char) (cs : List Char) : Option (Nat × Unit) :=
  if isPrefixCI (("soy").data) cs then some (3, ())
  else if isPrefixCI (("soya").data) cs then some (4, ())
  else if isPrefixCI (("soybean").data) cs then some (7, ())
  else none

/-- `lactose` (IGNORECASE). -/
def mLactose (_prev : Option Char) (cs : List Char) : Option (Nat × Unit) :=
  if isPrefixCI (("lactose").data) cs then some (7, ()) else none

/-- `RE_CONTRA = contraindicat` (IGNORECASE, plain substring). -/
def mContraSub (_prev : Option Char) (cs : List Char) : Option (Nat × Unit) :=
  if isPrefixCI (("contraindicat").data) cs then some (13, ()) else none

/-- A route-catalog pattern `\b<escaped keyword>\b` (keyword given
lowercased; the catalog compiles it over the lowercased line, and matching
case-insensitively over the original line is equivalent).  The boundary
tests compare the word-character status on each side of the matched span;
keywords ending in `.` (like `p.o.`) therefore require a following word
character, exactly as the compiled pattern does. -/
def mKw (kw : List Char) (prev : Option Char) (cs : List Char) : Option (Nat × Unit) :=
  match eatLit kw cs with
  | none => none
  | some rest =>
    if boundaryB prev cs.head? && boundaryB (cs.get? (kw.length - 1)) rest.head? then
      some (kw.length, ())
    else none

/-! ## Route catalog (`monograph/routes_catalog.py`) -/

/-- `MEDICATION_ROUTES`, in the source's (dict-insertion) order. -/
def MEDICATION_ROUTES : List (String × List String) :=
  [("Oral", ["Oral", "PO", "P.O.", "By Mouth", "Per Os", "Swallow", "Orally", "Peroral"]),
   ("Rectal", ["Rectal", "PR", "P.R.", "Per Rectum", "Rectally"]),
   ("Topical", ["Topical", "Cutaneous", "Dermal", "Skin", "External", "Topically",
     "Dermatological"]),
   ("Ophthalmic", ["Ophthalmic", "Ocular", "Eye", "Ophth", "Ophthalmological",
     "Conjunctival"]),
   ("Otic", ["Otic", "Aural", "Ear", "Otological", "Oticly", "Auricular"]),
   ("Nasal", ["Nasal", "Intranasal", "Nose", "Nasally", "Rhinal"]),
   ("Inhalation", ["Inhalation", "Inhaled", "Pulmonary", "Respiratory", "Nebulized",
     "Inhalational", "Aerosol"]),
   ("Intravenous", ["Intravenous", "IV", "I.V.", "Intravenous Injection", "IV Push",
     "IV Infusion", "Intravenously"]),
   ("Intramuscular", ["Intramuscular", "IM", "I.M.", "Intramuscular Injection",
     "Intramuscularly"]),
   ("Subcutaneous", ["Subcutaneous", "SC", "S.C.", "SubQ", "Subcut",
     "Subcutaneous Injection", "Subcutaneously"]),
   ("Intradermal", ["Intradermal", "ID", "I.D.", "Intracutaneous", "Intradermally"]),
   ("Sublingual", ["Sublingual", "SL", "S.L.", "Under Tongue", "Sublingually"]),
   ("Buccal", ["Buccal", "Bucc", "Between Cheek and Gum", "Buccally"]),
   ("Vaginal", ["Vaginal", "PV", "P.V.", "Per Vagina", "Intravaginal", "Vaginally"]),
   ("Transdermal", ["Transdermal", "TD", "T.D.", "Patch", "Dermal Patch",
     "Transdermally"]),
   ("Intrathecal", ["Intrathecal", "IT", "I.T.", "Spinal", "Intraspinal",
     "Intrathecally"]),
   ("Epidural", ["Epidural", "ED", "E.D.", "Peridural", "Epidurally"])]

/-- `ROUTE_PATTERNS`: one `\b<keyword>\b` pattern per synonym (keyword
lowercased, as the compiled pattern is), paired with its canonical route,
in the source's construction order. -/
def ROUTE_PATTERNS : List (List Char × String) :=
  MEDICATION_ROUTES.flatMap (fun rk => rk.2.map (fun kw => (lowerStr kw.data, rk.1)))

def ROUTE_PRIORITY : List String :=
  ["Oral", "Intravenous", "Intramuscular", "Subcutaneous", "Rectal",
   "Topical", "Transdermal", "Sublingual", "Buccal", "Vaginal",
   "Inhalation", "Nasal", "Ophthalmic", "Otic", "Intradermal",
   "Intrathecal", "Epidural"]

/-- All `(position, route)` mentions in a line: for each pattern in order,
the positions of its non-overlapping matches, left to right — exactly the
iteration order of the nested loops in `detect_route_near`. -/
def routeMentionsOf (s : List Char) : List (Nat × String) :=
  ROUTE_PATTERNS.flatMap (fun pr => (scanAll (mKw pr.1) s).map (fun t => (t.1, pr.2)))

/-- `detect_route_in_text`: the canonical route whose earliest synonym
occurrence has the smallest position (first pattern wins position ties),
or none. -/
def detectRouteInText (s : List Char) : Option String :=
  let best := ROUTE_PATTERNS.foldl
    (fun (best : Option (Nat × String)) pr =>
      match searchFirst (mKw pr.1) s with
      | none => best
      | some (i, _, _) =>
        match best with
        | none => some (i, pr.2)
        | some b => if i < b.1 then some (i, pr.2) else best)
    none
  best.map (fun b => b.2)

/-- One step of the `detect_route_near` state machine: track the earliest
mention overall (strict `<`, so the first pattern wins ties) and the latest
mention at or before the index (strict `>`, starting from the sentinel
`best_pos = -1`, so any mention beats the initial state and the first
pattern wins ties). -/
def nearStep (idx : Nat) (st : Option (Nat × String) × Option (Nat × String))
    (m : Nat × String) : Option (Nat × String) × Option (Nat × String) :=
  let first :=
    match st.1 with
    | none => some m
    | some f => if m.1 < f.1 then some m else some f
  let best :=
    if m.1 ≤ idx then
      match st.2 with
      | none => some m
      | some b => if b.1 < m.1 then some m else some b
    else st.2
  (first, best)

/-- `detect_route_near(line, number_start_idx)`. -/
def detectRouteNear (s : List Char) (idx : Nat) : Option String :=
  let st := (routeMentionsOf s).foldl (nearStep idx) (none, none)
  match st.2 with
  | some b => some b.2
  | none => st.1.map (fun f => f.2)

/-! ## Number-word replacement (`assess.py` `_replace_number_words` and the
`re.sub(r'\bthree\b', '3', ...)` chain of `recommendations.py`) -/

def NUMWORDS : List (List Char × Nat) :=
  [(("zero").data, 0), (("one").data, 1), (("two").data, 2), (("three").data, 3),
   (("four").data, 4), (("five").data, 5), (("six").data, 6), (("seven").data, 7),
   (("eight").data, 8), (("nine").data, 9), (("ten").data, 10),
   (("eleven").data, 11), (("twelve").data, 12)]

/-- Try each `\b<word>\b` (case-insensitively; leading boundary is checked
by the caller) and return the word length and value. -/
def findNumWord (words : List (List Char × Nat)) (cs : List Char) : Option (Nat × Nat) :=
  words.findSome? (fun wv => (litB wv.1 cs).map (fun n => (n, wv.2)))

def replaceWordsGo (words : List (List Char × Nat)) :
    Nat → Option Char → List Char → List Char
  | 0, _, rest => rest
  | _ + 1, _, [] => []
  | fuel + 1, prev, c :: rest =>
    if isWordOpt prev then c :: replaceWordsGo words fuel (some c) rest
    else
      match findNumWord words (c :: rest) with
      | some (w, v) =>
        (Nat.repr v).data ++ replaceWordsGo words fuel ((c :: rest).get? (w - 1))
          ((c :: rest).drop w)
      | none => c :: replaceWordsGo words fuel (some c) rest

/-- `_replace_number_words` (assess.py): words one..twelve → digits. -/
def replaceNumberWords (cs : List Char) : List Char :=
  replaceWordsGo NUMWORDS (cs.length + 1) none cs

/-- The sequential `re.sub` chain of `_parse_dose_and_freq`
(three → 3, two → 2, one → 1, four → 4); the substituted digits are never
part of a later word match, so the chain equals one left-to-right pass. -/
def replaceSmallNumberWords (cs : List Char) : List Char :=
  replaceWordsGo [(("three").data, 3), (("two").data, 2), (("one").data, 1),
    (("four").data, 4)] (cs.length + 1) none cs

/-! ## Dosage extraction (`monograph/dosage.py`) -/

def lookupA {β : Type} (l : List (String × β)) (k : String) : Option β :=
  (l.find? (fun kv => kv.1 == k)).map (fun kv => kv.2)

def hasKeyA {β : Type} (l : List (String × β)) (k : String) : Bool :=
  (lookupA l k).isSome

/-- `route_doses.setdefault(r, set()).add(d)`. -/
def addToAssocQ (l : List (String × List ℚ)) (k : String) (x : ℚ) :
    List (String × List ℚ) :=
  if hasKeyA l k then
    l.map (fun kv => if kv.1 == k then (kv.1, insertIfAbsent kv.2 x) else kv)
  else l ++ [(k, [x])]

/-- `_add_route_sentence`: `route_sentences.setdefault(rkey, [])` then
append if absent. -/
def addToAssocS (l : List (String × List String)) (k : String) (s : String) :
    List (String × List String) :=
  if hasKeyA l k then
    l.map (fun kv =>
      if kv.1 == k then (kv.1, if s ∈ kv.2 then kv.2 else kv.2 ++ [s]) else kv)
  else l ++ [(k, [s])]

/-- `_filter_realistic_doses`: sort, then keep the slice
`[int(n*0.1) : min(n-1, int(n*0.9)) + 1]`.  The index arithmetic is done
here in exact rationals; for a double-precision float, `int(n*0.1)` and
`int(n*0.9)` agree with `⌊n/10⌋` and `⌊9n/10⌋` for every list length the
extractor can produce. -/
def filterRealisticDoses (doses : List ℚ) : List ℚ :=
  if doses.isEmpty then []
  else
    let sortedD := sortQ doses
    let n := sortedD.length
    let lowerIdx := max 0 (Int.toNat (Rat.floor ((n : ℚ) * (1 / 10))))
    let upperIdx := min (n - 1) (Int.toNat (Rat.floor ((n : ℚ) * (9 / 10))))
    (sortedD.drop lowerIdx).take (upperIdx + 1 - lowerIdx)

/-- The route a numeric match is attributed to in `extract_dosage_info`:
`route_here = detect_route_near(s_clean, m.start()) or route_context`, then
`"Unspecified"` when that is still `None`. -/
def routeAttrib (sClean : List Char) (i : Nat) (ctx : Option String) : String :=
  ((detectRouteNear sClean i).orElse (fun _ => ctx)).getD "Unspecified"

/-- The mutable accumulation state of `extract_dosage_info`'s sentence
loop. -/
structure ExtState where
  currentSection : Option String
  routeContext : Option String
  doseSentences : List String
  dosageForms : List String
  dosageAdmin : List String
  routeDoses : List (String × List ℚ)
  routeSentences : List (String × List String)
  mgkgVals : List ℚ
  mgmlVals : List ℚ
  concentrationRoutes : List String
  unitFormats : List String
deriving Repr, DecidableEq

def isDoseBearing (l : List Char) : Bool :=
  containsSub ((" mg").data) l || containsSub (("mg/kg").data) l ||
    containsSub (("mg/ml").data) l || containsSub ((" mcg").data) l ||
    containsSub ((" g ").data) l || containsSub ((" every ").data) l ||
    containsSub (("% w/v").data) l || containsSub (("% w/w").data) l

/-- Body of the `RE_DOSE.finditer` loop: skip matches whose 6-character
tail matches `\s*/\s*(kg|ml)`, otherwise record the mg value and the
supporting sentence under the attributed route. -/
def mgMatchStep (sClean : List Char) (ctx : Option String) (st : ExtState)
    (t : Nat × Nat × ℚ) : ExtState :=
  let tail := (sClean.drop (t.1 + t.2.1)).take 6
  if matchKgMlTail tail then st
  else
    let rkey := routeAttrib sClean t.1 ctx
    { st with
      unitFormats := insertIfAbsentS st.unitFormats "mg",
      routeDoses := addToAssocQ st.routeDoses rkey t.2.2,
      routeSentences := addToAssocS st.routeSentences rkey (String.mk sClean) }

/-- Body of the `RE_DOSE_G.finditer` loop (grams × 1000). -/
def gMatchStep (sClean : List Char) (ctx : Option String) (st : ExtState)
    (t : Nat × Nat × ℚ) : ExtState :=
  let rkey := routeAttrib sClean t.1 ctx
  { st with
    unitFormats := insertIfAbsentS st.unitFormats "mg",
    routeDoses := addToAssocQ st.routeDoses rkey (t.2.2 * 1000),
    routeSentences := addToAssocS st.routeSentences rkey (String.mk sClean) }

/-- Body of the `RE_DOSE_MCG.finditer` loop (micrograms / 1000). -/
def mcgMatchStep (sClean : List Char) (ctx : Option String) (st : ExtState)
    (t : Nat × Nat × ℚ) : ExtState :=
  let rkey := routeAttrib sClean t.1 ctx
  { st with
    unitFormats := insertIfAbsentS st.unitFormats "mg",
    routeDoses := addToAssocQ st.routeDoses rkey (t.2.2 / 1000),
    routeSentences := addToAssocS st.routeSentences rkey (String.mk sClean) }

/-- Body of the `RE_DOSE_MGKG.finditer` loop. -/
def mgkgMatchStep (sClean : List Char) (ctx : Option String) (st : ExtState)
    (t : Nat × Nat × ℚ) : ExtState :=
  { st with
    mgkgVals := insertIfAbsent st.mgkgVals t.2.2,
    unitFormats := insertIfAbsentS st.unitFormats "mg/kg",
    routeSentences := addToAssocS st.routeSentences (ctx.getD "Unspecified")
      (String.mk sClean) }

/-- Body of the `RE_DOSE_MGML.finditer` loop; note that
`concentration_routes` is only extended when a route was found (no
"Unspecified" fallback there). -/
def mgmlMatchStep (sClean : List Char) (ctx : Option String) (st : ExtState)
    (t : Nat × Nat × ℚ) : ExtState :=
  let routeHere := (detectRouteNear sClean t.1).orElse (fun _ => ctx)
  { st with
    mgmlVals := insertIfAbsent st.mgmlVals t.2.2,
    unitFormats := insertIfAbsentS st.unitFormats "mg/mL",
    concentrationRoutes :=
      match routeHere with
      | some r => insertIfAbsentS st.concentrationRoutes r
      | none => st.concentrationRoutes,
    routeSentences := addToAssocS st.routeSentences (routeHere.getD "Unspecified")
      (String.mk sClean) }

/-- One sentence of `extract_dosage_info`'s main loop. -/
def processSentence (st : ExtState) (piece : List Char) : ExtState :=
  let sClean := stripChars piece
  if sClean.isEmpty then st
  else
    let l := lowerStr sClean
    let sec :=
      if containsSub (("dosage forms").data) l || containsSub (("strengths").data) l then
        some "forms"
      else if containsSub (("dosage & administration").data) l ||
          containsSub (("dosage and administration").data) l then some "admin"
      else st.currentSection
    let seenRoute := detectRouteInText sClean
    let ctx := seenRoute.orElse (fun _ => st.routeContext)
    let st := { st with currentSection := sec, routeContext := ctx }
    if !isDoseBearing l then st
    else
      let sStr := String.mk sClean
      let st :=
        { st with
          doseSentences := st.doseSentences ++ [sStr],
          dosageForms := if sec = some "forms" then st.dosageForms ++ [sStr]
            else st.dosageForms,
          dosageAdmin := if sec = some "admin" then st.dosageAdmin ++ [sStr]
            else st.dosageAdmin }
      let st := (scanAll mDose sClean).foldl (mgMatchStep sClean ctx) st
      let st := (scanAll mDoseG sClean).foldl (gMatchStep sClean ctx) st
      let st := (scanAll mDoseMcg sClean).foldl (mcgMatchStep sClean ctx) st
      let st := (scanAll mDoseMgKg sClean).foldl (mgkgMatchStep sClean ctx) st
      let st := (scanAll mDoseMgMl sClean).foldl (mgmlMatchStep sClean ctx) st
      let st :=
        if searchB mWV sClean then
          { st with
            unitFormats := insertIfAbsentS st.unitFormats "% w/v",
            routeSentences := addToAssocS st.routeSentences (ctx.getD "Unspecified") sStr }
        else st
      let st :=
        if searchB mWW sClean then
          { st with
            unitFormats := insertIfAbsentS st.unitFormats "% w/w",
            routeSentences := addToAssocS st.routeSentences (ctx.getD "Unspecified") sStr }
        else st
      st

structure RouteCase where
  dosesMg : List ℚ
  sentences : List String
deriving Repr, DecidableEq

structure DoseInfo where
  doseSentences : List String
  routeDoses : List (String × List ℚ)
  mgkgVals : List ℚ
  mgmlVals : List ℚ
  dosageForms : List String
  dosageAdmin : List String
  concentrationRoutes : List String
  unitFormats : List String
  routeSentences : List (String × List String)
  routeCases : List (String × RouteCase)
deriving Repr, DecidableEq

def emptyExtState : ExtState :=
  { currentSection := none, routeContext := none, doseSentences := [],
    dosageForms := [], dosageAdmin := [], routeDoses := [], routeSentences := [],
    mgkgVals := [], mgmlVals := [], concentrationRoutes := [], unitFormats := [] }

/-- `extract_dosage_info`. -/
def extractDosageInfo (text : String) : DoseInfo :=
  let sentences := splitAfter ['\n', '.'] text.data
  let st := sentences.foldl processSentence emptyExtState
  let filtered := st.routeDoses.filterMap
    (fun kv => if kv.2.isEmpty then none
      else some (kv.1, filterRealisticDoses (sortQ kv.2)))
  let casesA := filtered.map
    (fun kv => (kv.1, RouteCase.mk kv.2 ((lookupA st.routeSentences kv.1).getD [])))
  let routeCases := casesA ++ st.routeSentences.filterMap
    (fun kv => if hasKeyA casesA kv.1 then none
      else some (kv.1, RouteCase.mk [] kv.2))
  { doseSentences := dedupKeepFirst st.doseSentences,
    routeDoses := filtered,
    mgkgVals := sortQ st.mgkgVals,
    mgmlVals := sortQ st.mgmlVals,
    dosageForms := st.dosageForms,
    dosageAdmin := st.dosageAdmin,
    concentrationRoutes := sortStrings st.concentrationRoutes,
    unitFormats := sortStrings st.unitFormats,
    routeSentences := st.routeSentences,
    routeCases := routeCases }

/-- `_pick_route_key_for_range` (dosage.py; the recommendations.py copy is
identical). -/
def pickRouteKeyForRange (di : DoseInfo) (route : Option String) : Option String :=
  if di.routeDoses.isEmpty then none
  else
    match route with
    | some r => if hasKeyA di.routeDoses r then some r else none
    | none =>
      if hasKeyA di.routeDoses "Unspecified" then some "Unspecified"
      else (sortStrings (di.routeDoses.map (fun kv => kv.1))).head?

/-- Python `max` over a nonempty list of ints. -/
def listMaxZ : List ℤ → Option ℤ
  | [] => none
  | x :: xs => some (xs.foldl (fun a b => if a < b then b else a) x)

/-- `scores[r] = score` (dict write: overwrite in place or append). -/
def dictSetZ (l : List (String × ℤ)) (k : String) (v : ℤ) : List (String × ℤ) :=
  if hasKeyA l k then l.map (fun kv => if kv.1 == k then (kv.1, v) else kv)
  else l ++ [(k, v)]

/-- The score `infer_best_route` assigns to one `route_cases` entry:
`2*len(doses) + len(sentences)`, minus 2 for "Unspecified". -/
def scoreOfCase (rc : String × RouteCase) : ℤ :=
  let s : ℤ := 2 * (rc.2.dosesMg.length : ℤ) + (rc.2.sentences.length : ℤ)
  if rc.1 = "Unspecified" then s - 2 else s

/-- `infer_best_route`. -/
def inferBestRoute (di : DoseInfo) (proposedDoseText : String) : Option String :=
  match detectRouteInText proposedDoseText.data with
  | some r => some r
  | none =>
    if di.routeCases.isEmpty then none
    else
      let scores := di.routeCases.foldl (fun acc rc => dictSetZ acc rc.1 (scoreOfCase rc)) []
      if scores.isEmpty then none
      else
        match listMaxZ (scores.map (fun kv => kv.2)) with
        | none => none
        | some maxScore =>
          let candidates := scores.filterMap
            (fun kv => if kv.2 = maxScore then some kv.1 else none)
          match ROUTE_PRIORITY.find? (fun pr => candidates.contains pr) with
          | some pr => some pr
          | none => (sortStrings candidates).head?

/-! ## Dose classification (`classify_dose`, dosage.py lines 325–399) -/

/-- The text of one classification record, with the numeric payloads the
source interpolates into the message; the `.0f`/`.1f` float formatting of
the message strings is abstracted away. -/
inductive ClassText where
  | concBased (route : String) (proposedMg : ℚ)
  | noRangeForRoute (route : String)
  | noValidFixedInfo
  | unableToComputeRange
  | below (p mn mx : ℚ)
  | above (p mn mx : ℚ)
  | within (p mn mx : ℚ)
deriving Repr, DecidableEq

structure ClassifyRec where
  text : ClassText
  level : String
deriving Repr, DecidableEq

/-- The shared tail of `classify_dose` once a value list is selected. -/
def classifyAgainst (proposedMg : ℚ) (vals : List ℚ) : List ClassifyRec :=
  if vals.isEmpty then [⟨ClassText.noValidFixedInfo, "info"⟩]
  else
    match listMinQ vals, listMaxQ vals with
    | some mn, some mx =>
      if proposedMg < mn then [⟨ClassText.below proposedMg mn mx, "caution"⟩]
      else if mx < proposedMg then [⟨ClassText.above proposedMg mn mx, "caution"⟩]
      else [⟨ClassText.within proposedMg mn mx, "info"⟩]
    | _, _ => [⟨ClassText.unableToComputeRange, "info"⟩]

/-- `classify_dose` (dosage.py). -/
def classifyDose (proposedMg : ℚ) (di : DoseInfo) (route : Option String)
    (priority : Bool) : List ClassifyRec :=
  match route with
  | some r =>
    if hasKeyA di.routeDoses r then
      classifyAgainst proposedMg ((lookupA di.routeDoses r).getD [])
    else if di.concentrationRoutes.contains r || !di.mgmlVals.isEmpty then
      [⟨ClassText.concBased r proposedMg, "info"⟩]
    else
      [⟨ClassText.noRangeForRoute r, "info"⟩]
  | none =>
    let routeKey : Option String :=
      if priority then (sortStrings (di.routeDoses.map (fun kv => kv.1))).head?
      else none
    let routeKey :=
      match routeKey with
      | some k => some k
      | none =>
        if hasKeyA di.routeDoses "Unspecified" then some "Unspecified"
        else if !di.routeDoses.isEmpty then
          (sortStrings (di.routeDoses.map (fun kv => kv.1))).head?
        else none
    let vals := match routeKey with
      | some k => (lookupA di.routeDoses k).getD []
      | none => []
    classifyAgainst proposedMg vals

/-! ## Allergy evaluator (`monograph/allergy.py`)

LLM polishing (`_polish_sentence` / `_polish_list` /
`_polish_body_preserve_prefix`) is the identity here: that is exactly the
source's behaviour when `qa_pipe` is unavailable, and the spec scopes prose
polishing out as an external pass-through collaborator.  Message strings
are abstracted into constructors carrying the interpolated data. -/

def splitOnPredGo (p : Char → Bool) : List Char → List Char → List (List Char)
  | acc, [] => [acc.reverse]
  | acc, c :: rest =>
    if p c then acc.reverse :: splitOnPredGo p [] rest
    else splitOnPredGo p (c :: acc) rest

/-- Characters kept by `re.sub(r'[^a-z0-9\s\-]+', ' ', ...)`. -/
def keepTokChar (c : Char) : Bool :=
  ('a' ≤ c && c ≤ 'z') || isDigitC c || isSpaceC c || c = '-'

/-- The `[\s,;/]+` token separator of `_normalize_tokens`.  Splitting
character-by-character can produce empty pieces where the source's `+`
collapses runs; both are discarded by the `if tok` filter. -/
def splitTokSep (c : Char) : Bool := isSpaceC c || c = ',' || c = ';' || c = '/'

/-- The tokens `_normalize_tokens` derives from one input string. -/
def tokensOfString (it : String) : List String :=
  let s := stripChars ((lowerStr it.data).map (fun c => if keepTokChar c then c else ' '))
  (splitOnPredGo splitTokSep [] s).filterMap
    (fun t =>
      let t2 := stripChars t
      if t2.isEmpty then none else some (String.mk t2))

/-- `_normalize_tokens` (the Python set is an insertion-ordered
duplicate-free list here; every use is membership or intersection, so the
order never matters). -/
def normalizeTokens (items : List String) : List String :=
  items.foldl (fun acc it => (tokensOfString it).foldl insertIfAbsentS acc) []

/-- `_SYNONYMS`, in source order. -/
def SYNONYMS : List (String × List String) :=
  [("nsaid", ["nsaid", "nsaids", "nonsteroidal anti-inflammatory",
      "nonsteroidal anti inflammatory"]),
   ("aspirin", ["aspirin", "asa", "acetylsalicylic acid"]),
   ("diclofenac", ["diclofenac", "voltaren"]),
   ("ibuprofen", ["ibuprofen", "motrin", "advil"]),
   ("naproxen", ["naproxen", "aleve"]),
   ("cox-2", ["cox-2", "cox2", "celecoxib"]),
   ("celecoxib", ["celecoxib", "celebrex", "cox-2", "cox2"]),
   ("penicillin", ["penicillin", "penicillins", "pcn"]),
   ("cephalosporin", ["cephalosporin", "cephalosporins", "cef-"]),
   ("sulfa", ["sulfa", "sulfonamide", "sulfonamides"]),
   ("peanut", ["peanut", "arachis"]),
   ("soy", ["soy", "soya", "soybean"]),
   ("lactose", ["lactose"]),
   ("shellfish", ["shellfish"])]

/-- Nonemptiness of a Python set intersection `a & b`. -/
def interNonemptyB (a b : List String) : Bool := a.any (fun t => b.contains t)

/-- `_expand_synonyms`: the guard reads the ORIGINAL token set, the
accumulator receives the bundle key and all members. -/
def expandSynonyms (tokens : List String) : List String :=
  SYNONYMS.foldl
    (fun out ks =>
      if interNonemptyB tokens ks.2 || tokens.contains ks.1 then
        (ks.1 :: ks.2).foldl insertIfAbsentS out
      else out)
    tokens

/-- `_severity_rank`: `{"info": 0, "caution": 1, "danger": 2}.get(value.lower(), 0)`. -/
def severityRank (v : String) : ℕ :=
  let l := String.mk (lowerStr v.data)
  if l = "info" then 0 else if l = "caution" then 1 else if l = "danger" then 2 else 0

/-- `_max_severity(a, b) = a if rank(a) >= rank(b) else b`. -/
def maxSeverity (a b : String) : String :=
  if severityRank b ≤ severityRank a then a else b

structure Signals where
  mentionsContra : Bool
  mentionsHypersens : Bool
  mentionsNsaidCross : Bool
  mentionsNsaid : Bool
  mentionsAspirin : Bool
deriving Repr, DecidableEq

/-- `extract_allergy_signals_from_monograph`. -/
def extractAllergySignals (t : String) : Signals :=
  { mentionsContra := searchB mContraSig t.data,
    mentionsHypersens := searchB mHypersensSig t.data,
    mentionsNsaidCross := searchB mNsaidCrossSig t.data,
    mentionsNsaid := searchB mNsaid t.data,
    mentionsAspirin := searchB mAspirin t.data }

def isLowerAlnum (c : Char) : Bool := ('a' ≤ c && c ≤ 'z') || isDigitC c

/-- `re.sub(r'[^a-z0-9]+', ' ', drug_name.lower()).strip()`. -/
def drugNormChars (drug : String) : List Char :=
  stripChars ((lowerStr drug.data).map (fun c => if isLowerAlnum c then c else ' '))

/-- `re.sub(r'[^a-z0-9]+', '', drug_name.lower())`. -/
def compactName (drug : String) : List Char :=
  (lowerStr drug.data).filter isLowerAlnum

/-- `_drug_token_set`. -/
def drugTokenSet (drug : String) : List String :=
  let tokens := expandSynonyms (normalizeTokens [drug])
  let compact := compactName drug
  if compact.isEmpty then tokens else insertIfAbsentS tokens (String.mk compact)

/-- The drug token set as `evaluate_allergies` computes it: empty unless
the normalized drug name is non-empty. -/
def drugToks (drug : String) : List String :=
  if (drugNormChars drug).isEmpty then [] else drugTokenSet drug

/-- `_string_found_in_text_any`. -/
def stringFoundInTextAny (needles : List String) (hay : String) : Bool :=
  if needles.isEmpty then false
  else if hay.isEmpty then false
  else needles.any (fun n => !n.isEmpty && containsSub n.data hay.data)

/-- `_expand_allergy_string_to_tokens`. -/
def expandAllergyStringToTokens (al : String) : List String :=
  expandSynonyms (normalizeTokens [al])

/-- The Boolean conditions driving `evaluate_allergies`' ordered rule
steps, in source order: `direct` is the hard-stop drug-allergy overlap,
`c2` the NSAID/aspirin cross-reactivity case, `c3`–`c5` the
penicillin/cephalosporin/sulfonamide class alignments, `c6`–`c8` the
peanut/soy/lactose excipient cases, and `c9` the generic-hypersensitivity
lift (which additionally requires the running severity to still be
"info"). -/
structure ACond where
  direct : Bool
  c2 : Bool
  c3 : Bool
  c4 : Bool
  c5 : Bool
  c6 : Bool
  c7 : Bool
  c8 : Bool
  c9 : Bool
deriving Repr, DecidableEq

def allergyConds (patientAllergies : List String) (monographText : String)
    (drugName : String) : ACond :=
  let ptoks := expandSynonyms (normalizeTokens patientAllergies)
  let sigs := extractAllergySignals monographText
  let suspectNsaidClass := sigs.mentionsNsaid || searchB mNsaidDrugs monographText.data
  let dNorm := drugNormChars drugName
  let dToks := if dNorm.isEmpty then [] else drugTokenSet drugName
  { direct := !dNorm.isEmpty && interNonemptyB ptoks dToks,
    c2 := (suspectNsaidClass && !(!dNorm.isEmpty && interNonemptyB ptoks dToks)) &&
      interNonemptyB ["aspirin", "nsaid"] ptoks,
    c3 := ptoks.contains "penicillin" && searchB mPenicillin monographText.data,
    c4 := ptoks.contains "cephalosporin" && searchB mCephalosporin monographText.data,
    c5 := ptoks.contains "sulfa" && searchB mSulfonamid monographText.data,
    c6 := (["peanut", "arachis"].any (fun k => ptoks.contains k)) &&
      searchB mPeanut monographText.data,
    c7 := (["soy", "soya", "soybean"].any (fun k => ptoks.contains k)) &&
      searchB mSoy monographText.data,
    c8 := (["lactose"].any (fun k => ptoks.contains k)) &&
      searchB mLactose monographText.data,
    c9 := sigs.mentionsHypersens && !patientAllergies.isEmpty }

/-- `severity = "danger"` inside the direct-match branch. -/
def sevStepSet (cond : Bool) (v : String) (s : String) : String :=
  if cond then v else s

/-- `severity = _max_severity(severity, v)` inside a guarded branch. -/
def sevStepMax (cond : Bool) (v : String) (s : String) : String :=
  if cond then maxSeverity s v else s

/-- The generic-hypersensitivity lift: only fires while severity is still
"info". -/
def sevStepHyp (cond : Bool) (s : String) : String :=
  if cond && (s == "info") then "caution" else s

/-- The severity updates of one `evaluate_allergies` call, in the order
the source performs them. -/
def allergySevFuns (c : ACond) : List (String → String) :=
  [sevStepSet c.direct "danger", sevStepMax c.c2 "danger", sevStepMax c.c3 "caution",
   sevStepMax c.c4 "caution", sevStepMax c.c5 "caution", sevStepMax c.c6 "caution",
   sevStepMax c.c7 "caution", sevStepMax c.c8 "caution", sevStepHyp c.c9]

/-- The running severity value before/after each rule step of one
`evaluate_allergies` call ("info" first, the final severity last). -/
def severityTrace (patientAllergies : List String) (monographText : String)
    (drugName : String) : List String :=
  List.scanl (fun s f => f s) "info"
    (allergySevFuns (allergyConds patientAllergies monographText drugName))

inductive AMatch where
  | direct (drug : String)
  | nsaidCross
  | penicillinCtx
  | cephalosporinCtx
  | sulfonamideCtx
  | excipient (label : String)
deriving Repr, DecidableEq

inductive AAction where
  | contraindicated (drug : String)
  | avoidNsaid
deriving Repr, DecidableEq

inductive AnnPart where
  | findings (ms : List AMatch)
  | actionLine (acts : List AAction)
  | genericNote
deriving Repr, DecidableEq

structure AllergyAlert where
  alertType : String
  severity : String
  annot : List AnnPart
deriving Repr, DecidableEq

structure NoConflictInfo where
  drugDisp : String
  hypersensTail : Bool
  crossTail : Bool
  unmatched : List String
deriving Repr, DecidableEq

structure AllergyEval where
  severity : String
  directDrugAllergy : Bool
  matchesL : List AMatch
  actionsL : List AAction
  signals : Signals
  alert : Option AllergyAlert
  unmatchedAllergies : List String
  noConflict : Option NoConflictInfo
deriving Repr, DecidableEq

/-- `evaluate_allergies`. -/
def evaluateAllergies (patientAllergies : List String) (monographText : String)
    (drugName : String) : AllergyEval :=
  let c := allergyConds patientAllergies monographText drugName
  let sigs := extractAllergySignals monographText
  let severity := (allergySevFuns c).foldl (fun s f => f s) "info"
  let matchesL :=
    (if c.direct then [AMatch.direct drugName] else []) ++
    (if c.c2 then [AMatch.nsaidCross] else []) ++
    (if c.c3 then [AMatch.penicillinCtx] else []) ++
    (if c.c4 then [AMatch.cephalosporinCtx] else []) ++
    (if c.c5 then [AMatch.sulfonamideCtx] else []) ++
    (if c.c6 then [AMatch.excipient "peanut"] else []) ++
    (if c.c7 then [AMatch.excipient "soy"] else []) ++
    (if c.c8 then [AMatch.excipient "lactose"] else [])
  let actionsL :=
    (if c.direct then [AAction.contraindicated drugName] else []) ++
    (if c.c2 then [AAction.avoidNsaid] else [])
  let dToks := drugToks drugName
  let unmatched := patientAllergies.filter
    (fun al =>
      let alToks := expandAllergyStringToTokens al
      let seenInMono := stringFoundInTextAny alToks monographText
      let overlapsDrug := if dToks.isEmpty then false else interNonemptyB alToks dToks
      !seenInMono && !overlapsDrug)
  let noConflict :=
    if matchesL.isEmpty && !patientAllergies.isEmpty then
      some (NoConflictInfo.mk
        (if drugName.isEmpty then "this medication" else drugName)
        sigs.mentionsHypersens sigs.mentionsNsaidCross unmatched)
    else none
  let annot :=
    (if !matchesL.isEmpty then [AnnPart.findings matchesL] else []) ++
    (if !actionsL.isEmpty then [AnnPart.actionLine actionsL] else [])
  let annot := if annot.isEmpty then [AnnPart.genericNote] else annot
  let alert :=
    if !matchesL.isEmpty || !actionsL.isEmpty || severity = "caution" ||
        severity = "danger" then
      some (AllergyAlert.mk "Allergy Alert" severity annot)
    else none
  { severity := severity, directDrugAllergy := c.direct, matchesL := matchesL,
    actionsL := actionsL, signals := sigs, alert := alert,
    unmatchedAllergies := unmatched, noConflict := noConflict }

/-! ## Patient profile and structured alerts (`monograph/alerts.py`) -/

/-- The patient fields the core reads.  The web form delivers strings; the
numeric fields are modelled as already-parsed optional rationals except for
the impairment flags, which the source consumes as raw strings (truthiness
and a yes-set test). -/
structure PatientInfo where
  age : Option ℚ
  sex : String
  weightKg : Option ℚ
  pregnant : Bool
  breastfeeding : Bool
  renalImpairment : String
  hepaticImpairment : String
  egfr : Option ℚ
  crcl : Option ℚ
  scr : Option ℚ
  durationDays : Option ℚ
  indication : String
  allergies : List String
  currentMeds : List String
deriving Repr, DecidableEq

/-- `(s or '').strip().lower() in ['yes','true','on','1','y']`. -/
def yesLike (s : String) : Bool :=
  let l := String.mk (lowerStr (stripChars s.data))
  l = "yes" || l = "true" || l = "on" || l = "1" || l = "y"

/-- One constructor per `add_alert` call site of
`generate_structured_alerts`, carrying the data interpolated into the
annotation strings. -/
inductive SAlert where
  | pedsNoWeight (drug : String) (recMin recMax : ℚ)
  | pedsBelow (drug : String) (proposedMgkg recMin recMax : ℚ)
  | pedsAbove (drug : String) (proposedMgkg recMin recMax : ℚ)
  | pedsCalcBelow (drug : String) (mgkgDay weight proposedMg : ℚ) (freqH : ℕ)
      (recMin recMax : ℚ)
  | pedsCalcAbove (drug : String) (mgkgDay weight proposedMg : ℚ) (freqH : ℕ)
      (recMin recMax : ℚ)
  | pedsNoFreq (drug : String) (weight : Option ℚ) (recMin recMax : ℚ)
  | absDigest (proposedMg : ℚ)
  | maxExceeded (drug : String) (proposedMg mxAllowed : ℚ)
  | durationMismatch (days monographDays : ℤ)
  | ageMissing (drug : String)
  | renalNoLabs (drug : String)
  | renalLab (kidneyMetric : ℚ) (drug : String) (proposedMg : ℚ)
  | hepatic (drug : String)
  | pregnancy (drug : String)
  | evidenceDigest (sentences : List String)
deriving Repr, DecidableEq

/-- The `AlertType` string of each alert, exactly as in the source. -/
def sAlertType : SAlert → String
  | SAlert.pedsNoWeight .. => "Low dose/high dose based on Dose range based Alert"
  | SAlert.pedsBelow .. => "Low dose/high dose based on Dose range based Alert"
  | SAlert.pedsAbove .. => "Low dose/high dose based on Dose range based Alert"
  | SAlert.pedsCalcBelow .. => "Low dose/high dose based on Dose range based Alert"
  | SAlert.pedsCalcAbove .. => "Low dose/high dose based on Dose range based Alert"
  | SAlert.pedsNoFreq .. => "Low dose/high dose based on Dose range based Alert"
  | SAlert.absDigest .. => "Dose alert based on drug"
  | SAlert.maxExceeded .. => "Maximum dose alert"
  | SAlert.durationMismatch .. => "Duration alert"
  | SAlert.ageMissing .. =>
      "Age/Sex group wise dose alert (Pediatrics, Adults, Geriatrics)"
  | SAlert.renalNoLabs .. => "Renal dose alert based on Health condition"
  | SAlert.renalLab .. =>
      "Renal dose alert based on Lab values (eGFR, CRCL, Serum creatinine)"
  | SAlert.hepatic .. => "Hepatic dose alert based on Health condition"
  | SAlert.pregnancy .. => "Pregnancy dose alert"
  | SAlert.evidenceDigest .. => "Dose alert based on drug"

/-- `generate_structured_alerts`.

The parsing loop for `egfr`, `crcl`, `scr` and `duration_days` assigns the
parsed values into the dict returned by `locals()`; CPython does not write
such entries back into a function's local variables, so all four names keep
their initial `None` for the entire call.  That makes the lab-value renal
branch and the whole duration branch unreachable; both facts are embedded
literally below. -/
def generateStructuredAlerts (drugName : String) (monographText : String)
    (di : DoseInfo) (pi : PatientInfo) (proposedDoseText : String)
    (_route : Option String) : List SAlert :=
  let fullText := monographText
  let textLines := ((splitLines fullText).map stripChars).filter (fun l => !l.isEmpty)
  let age := pi.age
  let weightKg := pi.weightKg
  let pregnant := pi.pregnant
  let hepaticImpairment := yesLike pi.hepaticImpairment
  -- egfr = crcl = scr = duration_days = None; `locals()[k] = val` is a no-op
  -- on the function's locals, so they stay None:
  let egfr : Option ℚ := none
  let crcl : Option ℚ := none
  let durationDays : Option ℤ := none
  let proposedMg : Option ℚ :=
    if proposedDoseText.isEmpty then none
    else
      let mgVals := findAllPayload mDose proposedDoseText.data
      let gVals := (findAllPayload mDoseG proposedDoseText.data).map (fun x => x * 1000)
      let mcgVals := (findAllPayload mDoseMcg proposedDoseText.data).map (fun x => x / 1000)
      listMaxQ (mgVals ++ gVals ++ mcgVals)
  let proposedMgkg : Option ℚ :=
    if proposedDoseText.isEmpty then none
    else (findAllPayload mDoseMgKg proposedDoseText.data).head?
  let freqEveryHours : Option ℕ :=
    if proposedDoseText.isEmpty then none
    else (searchFirst mEveryHoursInt proposedDoseText.data).map (fun t => t.2.2)
  let mgkgVals := di.mgkgVals
  let pedsAlerts : List SAlert :=
    if mgkgVals.isEmpty then []
    else
      match listMinQ mgkgVals, listMaxQ mgkgVals with
      | some recMin, some recMax =>
        if weightKg = none && proposedMgkg = none then
          [SAlert.pedsNoWeight drugName recMin recMax]
        else
          match proposedMgkg with
          | some pk =>
            if pk < recMin then [SAlert.pedsBelow drugName pk recMin recMax]
            else if recMax < pk then [SAlert.pedsAbove drugName pk recMin recMax]
            else []
          | none =>
            match proposedMg, freqEveryHours, weightKg with
            | some pm, some fh, some w =>
              -- `int(24 / fh)` raises ZeroDivisionError for fh = 0; the
              -- bare except then swallows the alert.
              if fh = 0 then []
              else
                let dosesPerDay : ℤ := max 1 ((24 : ℤ) / (fh : ℤ))
                let dailyMg := pm * (dosesPerDay : ℚ)
                let mgkgDay := dailyMg / max (1 / 1000000) w
                if mgkgDay < recMin then
                  [SAlert.pedsCalcBelow drugName mgkgDay w pm fh recMin recMax]
                else if recMax < mgkgDay then
                  [SAlert.pedsCalcAbove drugName mgkgDay w pm fh recMin recMax]
                else []
            | _, _, _ => [SAlert.pedsNoFreq drugName weightKg recMin recMax]
      | _, _ => []
  let absAlerts : List SAlert :=
    match proposedMg with
    | some pm => [SAlert.absDigest pm]
    | none => []
  let maxAlerts : List SAlert :=
    let maxLines := textLines.filter (fun ln => searchB mMax ln)
    match proposedMg with
    | none => []
    | some pm =>
      if maxLines.isEmpty then []
      else
        let maxCandidates := maxLines.flatMap
          (fun ln => findAllPayload mDose ln ++
            (findAllPayload mDoseG ln).map (fun x => x * 1000))
        match listMaxQ maxCandidates with
        | none => []
        | some mx => if mx < pm then [SAlert.maxExceeded drugName pm mx] else []
  -- `if duration_days is not None:` — never true because `duration_days`
  -- stays None (see the note above), so the whole Duration-alert branch is
  -- dead code and contributes nothing; `durationDays` is kept bound to
  -- record that fact:
  let _ := durationDays
  let durationAlerts : List SAlert := []
  let ageAlerts : List SAlert :=
    match age with
    | none => [SAlert.ageMissing drugName]
    | some _ => []
  let renalAlerts : List SAlert :=
    if !(stripS pi.renalImpairment).isEmpty || egfr.isSome || crcl.isSome then
      if egfr = none && crcl = none then [SAlert.renalNoLabs drugName]
      else
        let kidneyMetric := match egfr with | some e => some e | none => crcl
        match kidneyMetric, proposedMg with
        | some km, some pm => if km < 30 then [SAlert.renalLab km drugName pm] else []
        | _, _ => []
    else []
  let hepaticAlerts : List SAlert :=
    if hepaticImpairment then [SAlert.hepatic drugName] else []
  let pregAlerts : List SAlert :=
    if pregnant then [SAlert.pregnancy drugName] else []
  let evidAlerts : List SAlert :=
    let informative := di.doseSentences.take 3
    if informative.isEmpty then [] else [SAlert.evidenceDigest informative]
  pedsAlerts ++ absAlerts ++ maxAlerts ++ durationAlerts ++ ageAlerts ++
    renalAlerts ++ hepaticAlerts ++ pregAlerts ++ evidAlerts

/-! ## Proposed-dose parsers (`assess._parse_proposed_total` and
`recommendations._parse_dose_and_freq`) -/

structure ParsedDose where
  perAdmin : Option ℚ
  freq : Option ℤ
  total : Option ℚ
deriving Repr, DecidableEq

/-- The shared frequency-detection chain of both parsers, applied to the
already lowercased and number-word-normalized text. -/
def detectFreq (txt : List Char) : Option ℤ :=
  let freq : Option ℤ := none
  let freq := if searchB mWordFreq1 txt then some 1 else freq
  let freq := if searchB mWordFreq2 txt then some 2 else freq
  let freq :=
    match searchFirst mNTimes txt with
    | some t => some ((t.2.2 : ℤ))
    | none => freq
  let freq :=
    match searchFirst mEveryHoursQ txt with
    | some t =>
      let hours := t.2.2
      if 0 < hours then some (max 1 (pyRound (24 / hours))) else freq
    | none => freq
  let freq :=
    match searchFirst mQnH txt with
    | some t =>
      let hours := t.2.2
      if 0 < hours then some (max 1 (pyRound ((24 : ℚ) / (hours : ℚ)))) else freq
    | none => freq
  freq

/-- The shared total-resolution tail of both parsers. -/
def resolveDose (perAdmin : Option ℚ) (freq : Option ℤ) (totalExplicit : Option ℚ) :
    ParsedDose :=
  let (perAdmin, freq) :=
    if totalExplicit.isSome && perAdmin.isNone then (totalExplicit, some 1)
    else (perAdmin, freq)
  match perAdmin, freq with
  | some pa, some f => ⟨some pa, some f, some (pa * (f : ℚ))⟩
  | _, _ =>
    match totalExplicit with
    | some te => ⟨perAdmin, freq, some te⟩
    | none =>
      match perAdmin with
      | some pa => ⟨some pa, some (freq.getD 1), some pa⟩
      | none => ⟨none, freq, none⟩

/-- `_parse_proposed_total` (assess.py). -/
def parseProposedTotal (proposedDoseText : String) : ParsedDose :=
  if proposedDoseText.isEmpty then ⟨none, none, none⟩
  else
    let txt := replaceNumberWords (lowerStr proposedDoseText.data)
    let perAdmin := listMaxQ (findAllPayload mDose txt)
    let freq := detectFreq txt
    let totalExplicit := (searchFirst mMgPerDay txt).map (fun t => t.2.2)
    resolveDose perAdmin freq totalExplicit

/-- `_parse_dose_and_freq` (recommendations.py): like
`_parse_proposed_total` but normalizing only one/two/three/four and also
accepting g/mcg amounts for the per-administration value. -/
def parseDoseAndFreq (doseText : String) : ParsedDose :=
  if doseText.isEmpty then ⟨none, none, none⟩
  else
    let txt := replaceSmallNumberWords (lowerStr doseText.data)
    let mgVals := findAllPayload mDose txt
    let gVals := (findAllPayload mDoseG txt).map (fun x => x * 1000)
    let mcgVals := (findAllPayload mDoseMcg txt).map (fun x => x / 1000)
    let perAdmin := listMaxQ (mgVals ++ gVals ++ mcgVals)
    let freq := detectFreq txt
    let totalExplicit := (searchFirst mMgPerDay txt).map (fun t => t.2.2)
    resolveDose perAdmin freq totalExplicit

/-! ## Monograph dose snippet (`assess.py` section 6b) -/

/-- `_extract_monograph_dose_snippet`. -/
def extractMonographDoseSnippet (fullText : String) : Option (List Char) :=
  if fullText.isEmpty then none
  else
    let pieces := splitAfter ['.', '?', '!'] fullText.data
    match pieces.find? (fun sent =>
        !sent.isEmpty && searchB mDose sent && searchB mRecommended sent) with
    | some sent => some (stripChars sent)
    | none =>
      match pieces.find? (fun sent =>
          !sent.isEmpty && searchB mDose sent && searchB mFreqTokens sent) with
      | some sent => some (stripChars sent)
      | none =>
        match pieces.find? (fun sent => searchB mDose sent) with
        | some sent => some (stripChars sent)
        | none => none

structure MonoParsed where
  perAdmin : Option ℚ
  freq : Option ℤ
  total : Option ℚ
  totalMin : Option ℚ
  totalMax : Option ℚ
  rangeIsDaily : Bool
deriving Repr, DecidableEq

/-- Steps 1–4 of `assess`'s monograph-dose parsing (the
`monograph_parsed_obj` construction). -/
def parseMonographDose (fullText : String) : MonoParsed :=
  match extractMonographDoseSnippet fullText with
  | none => ⟨none, none, none, none, none, false⟩
  | some snipRaw =>
    let snip := replaceNumberWords snipRaw
    -- 1) explicit numeric daily range
    let (tmin, tmax, rid) :=
      match searchFirst mRangeMgDay snip with
      | some t => (some t.2.2.1, some t.2.2.2, true)
      | none => ((none : Option ℚ), (none : Option ℚ), false)
    -- 2) explicit single daily total (only if no range was found)
    let (total0, rid) :=
      if tmin.isNone then
        match searchFirst mMgPerDay snip with
        | some t => (some t.2.2, true)
        | none => ((none : Option ℚ), rid)
      else (none, rid)
    -- 3) "divided" + parenthetical per-administration examples
    let (pa0, fr0, total1) :=
      if searchB mDivid snip then
        match searchFirst mParen snip with
        | some t =>
          let p := parseProposedTotal (String.mk t.2.2)
          (p.perAdmin, p.freq,
           if p.total.isSome && total0.isNone then p.total else total0)
        | none => ((none : Option ℚ), (none : Option ℤ), total0)
      else (none, none, total0)
    -- 4) generic parse of the snippet when no daily totals were detected
    if tmin.isNone && total1.isNone then
      let m := parseProposedTotal (String.mk snip)
      match m.total with
      | some mt => ⟨pa0, fr0, some mt, tmin, tmax, true⟩
      | none =>
        ⟨(if m.perAdmin.isSome then m.perAdmin else pa0),
         (if m.freq.isSome then m.freq else fr0), total1, tmin, tmax, rid⟩
    else ⟨pa0, fr0, total1, tmin, tmax, rid⟩

/-! ## Recommendation derivation (`monograph/recommendations.py`) -/

/-- Legacy `find_allergy_alerts` (alerts.py): per allergy, the lowercased
monograph lines containing it (the HTML highlighting is abstracted away);
an entry exists only when at least one line matched. -/
structure LegacyAllergyAlert where
  allergy : String
  relatedLines : List (List Char)
deriving Repr, DecidableEq

def findAllergyAlerts (textLinesLower : List (List Char)) (allergies : List String) :
    List LegacyAllergyAlert :=
  allergies.filterMap
    (fun a =>
      let al := lowerStr a.data
      let related := textLinesLower.filter (fun ln => containsSub al ln)
      if related.isEmpty then none else some (LegacyAllergyAlert.mk a related))

inductive StructAlertEntry where
  | rule (a : SAlert)
  | allergy (a : AllergyAlert)
deriving Repr, DecidableEq

def alertTypeOf : StructAlertEntry → String
  | StructAlertEntry.rule a => sAlertType a
  | StructAlertEntry.allergy a => a.alertType

/-- `_alerts_by_type`: group alerts by `AlertType` (annotation lines are
represented by the alert entries themselves). -/
def alertsByType (alerts : List StructAlertEntry) : List (String × List StructAlertEntry) :=
  alerts.foldl
    (fun idx a =>
      let aty := alertTypeOf a
      if aty.isEmpty then idx
      else if hasKeyA idx aty then
        idx.map (fun kv => if kv.1 == aty then (kv.1, kv.2 ++ [a]) else kv)
      else idx ++ [(aty, [a])])
    []

def criticalHints : List String :=
  ["Maximum dose alert",
   "Low dose/high dose based on Health condition Alert",
   "Low dose/high dose based on Dose range based Alert",
   "Renal dose alert based on Lab values (eGFR, CRCL, Serum creatinine)",
   "Renal dose alert based on Health condition",
   "Hepatic dose alert based on Health condition",
   "Pregnancy dose alert",
   "Age/Sex group wise dose alert (Pediatrics, Adults, Geriatrics)",
   "Weight wise alert",
   "Age based alert that the drug can be given or not",
   "Sex based alert that the drug can be given or not (Male-Only Drug Alert)",
   "Sex based alert that the drug can be given or not (Female-Only Drug Alert)",
   "Pre-Medication Alert"]

/-- `_severity_from_alerts`. -/
def severityFromAlerts (idx : List (String × List StructAlertEntry))
    (hasAllergy : Bool) : String :=
  if hasAllergy then "caution"
  else if criticalHints.any (fun k => hasKeyA idx k) then "caution"
  else "info"

/-- The primary recommendation statement, one constructor per message of
`derive_dosage_recommendations` (plus `assess`'s fixed "Contraindicated due
to allergy." statement), carrying the interpolated numbers. -/
inductive RecPrimary where
  | contraindicatedAllergy
  | concRouteNoRange (route : String) (drug : String)
  | noRangeRouteFormats (route : String) (drug : String) (formats : List String)
  | askFrequency (perAdmin tmin tmax : ℚ)
  | useDailyRange (tmin tmax : ℚ)
  | belowDaily (p tmin tmax : ℚ)
  | aboveDaily (p tmin tmax : ℚ)
  | withinDaily (p tmin tmax : ℚ)
  | perAdminBelow (p mn mx : ℚ)
  | perAdminAbove (p mn mx : ℚ)
  | perAdminWithin (p mn mx : ℚ)
  | useFixedRange (routeKey : Option String) (mn mx : ℚ)
  | increaseTowardRange (routeKey : Option String) (mn mx p : ℚ)
  | reduceToRange (routeKey : Option String) (mn mx p : ℚ)
  | withinFixedRange (routeKey : Option String) (mn mx p : ℚ)
  | weightBasedGeneric
deriving Repr, DecidableEq

inductive RecBullet where
  | weightBasedGeneric
  | maxStatement
  | durationAlign (days : ℤ)
  | doseRangeFirstLine (e : StructAlertEntry)
  | healthCondFirstLine (e : StructAlertEntry)
  | allergyVerify
deriving Repr, DecidableEq

structure RecRanges where
  route : Option String
  minMg : Option ℚ
  maxMg : Option ℚ
deriving Repr, DecidableEq

/-- The recommendation record ( `level` is `none` for `assess`'s fixed
contraindication dict, which carries no level key). -/
structure RecOut where
  level : Option String
  primary : Option RecPrimary
  bullets : List RecBullet
  ranges : RecRanges
deriving Repr, DecidableEq

/-- `derive_dosage_recommendations`.  The `report` parameter of the source
is passed as its three read fields: the structured alerts, the legacy
allergy alerts, and the monograph-dose parse from `report['details']`.

Note on the weight-based branch: the source's
`mgkg_min = mgkg_max = (min(mgkg_vals), max(mgkg_vals)) if mgkg_vals else (None, None)`
binds BOTH names to a 2-tuple, which is truthy in either case, so
`elif mgkg_min and mgkg_max:` always holds; and `f"{mgkg_min:.0f}"`
applies a float format spec to a tuple, raising TypeError, so the
weight-based primary statement and bullet always take their
`except`-branch generic texts. -/
def deriveDosageRecommendations (structAlerts : List StructAlertEntry)
    (legacyAllergyAlerts : List LegacyAllergyAlert) (monographParsed : MonoParsed)
    (di : DoseInfo) (proposedDoseText : String) (drugName : String)
    (route : Option String) : RecOut :=
  let structIdx := alertsByType structAlerts
  let routeKey := pickRouteKeyForRange di route
  let (minMg, maxMg, ranges) :=
    match routeKey with
    | some rk =>
      let vals := (lookupA di.routeDoses rk).getD []
      if vals.isEmpty then ((none : Option ℚ), (none : Option ℚ), RecRanges.mk none none none)
      else (listMinQ vals, listMaxQ vals, RecRanges.mk (some rk) (listMinQ vals) (listMaxQ vals))
    | none => (none, none, RecRanges.mk none none none)
  let mgmlVals := di.mgmlVals
  let concentrationRoutes := di.concentrationRoutes
  let unitFormats := di.unitFormats
  let p := parseDoseAndFreq proposedDoseText
  let perAdminProp := p.perAdmin
  let freqProp := p.freq
  let totalProp := p.total
  let proposedMg :=
    match totalProp with
    | some t => some t
    | none => perAdminProp
  let m := monographParsed
  let (monoTotMin, monoTotMax) :=
    if (m.totalMin.isSome && m.totalMax.isSome) || (m.total.isSome && m.rangeIsDaily) then
      match m.totalMin, m.totalMax with
      | some a, some b => (some a, some b)
      | _, _ => (m.total, m.total)
    else if m.rangeIsDaily && (minMg.isSome && maxMg.isSome) then
      (minMg, maxMg)
    else
      match m.perAdmin, m.freq with
      | some mp, some mf => (some (mp * (mf : ℚ)), some (mp * (mf : ℚ)))
      | _, _ => ((none : Option ℚ), (none : Option ℚ))
  let (monoTotMin, monoTotMax) :=
    if monoTotMin.isNone && monoTotMax.isNone then
      let sample := String.intercalate " " (di.doseSentences.take 3)
      if sample.isEmpty then (monoTotMin, monoTotMax)
      else
        let ms := parseDoseAndFreq sample
        match ms.total with
        | some t => (some t, some t)
        | none =>
          match ms.perAdmin, ms.freq with
          | some mp, some mf =>
            if minMg.isSome && maxMg.isSome then
              (minMg.map (fun x => x * (mf : ℚ)), maxMg.map (fun x => x * (mf : ℚ)))
            else (some (mp * (mf : ℚ)), some (mp * (mf : ℚ)))
          | _, _ => (monoTotMin, monoTotMax)
    else (monoTotMin, monoTotMax)
  let hasAllergy := !legacyAllergyAlerts.isEmpty
  -- concentration-route early return
  if route.isSome && (pickRouteKeyForRange di route).isNone then
    let r := route.getD ""
    let primary :=
      if concentrationRoutes.contains r || !mgmlVals.isEmpty then
        RecPrimary.concRouteNoRange r drugName
      else RecPrimary.noRangeRouteFormats r drugName unitFormats
    { level := some (severityFromAlerts structIdx hasAllergy),
      primary := some primary, bullets := [], ranges := ranges }
  else
    let (primary, level) :=
      if monoTotMin.isSome && monoTotMax.isSome then
        let tmin := monoTotMin.getD 0
        let tmax := monoTotMax.getD 0
        match proposedMg with
        | none =>
          match perAdminProp, freqProp with
          | some pa, none => (RecPrimary.askFrequency pa tmin tmax, "info")
          | _, _ => (RecPrimary.useDailyRange tmin tmax, "info")
        | some pm =>
          if pm < tmin then (RecPrimary.belowDaily pm tmin tmax, "caution")
          else if tmax < pm then (RecPrimary.aboveDaily pm tmin tmax, "caution")
          else (RecPrimary.withinDaily pm tmin tmax, "info")
      else
        match minMg, maxMg with
        | some mn, some mx =>
          (match perAdminProp, freqProp with
           | some pa, some _ =>
             if pa < mn then (RecPrimary.perAdminBelow pa mn mx, "caution")
             else if mx < pa then (RecPrimary.perAdminAbove pa mn mx, "caution")
             else (RecPrimary.perAdminWithin pa mn mx, "info")
           | _, _ =>
             match proposedMg with
             | none => (RecPrimary.useFixedRange routeKey mn mx, "info")
             | some pm =>
               if pm < mn then (RecPrimary.increaseTowardRange routeKey mn mx pm, "caution")
               else if mx < pm then (RecPrimary.reduceToRange routeKey mn mx pm, "caution")
               else (RecPrimary.withinFixedRange routeKey mn mx pm, "info"))
        | _, _ =>
          -- weight-based fallback: always reached when the two branches
          -- above fail (tuple truthiness), always the except-branch text
          -- (tuple float-format TypeError); the final `else` arm of the
          -- source is dead code.
          (RecPrimary.weightBasedGeneric, "info")
    -- bullets: the weight-based bullet is always appended (same tuple
    -- truthiness + TypeError as above)
    let bullets := [RecBullet.weightBasedGeneric]
    let bullets := bullets ++
      (if hasKeyA structIdx "Maximum dose alert" then [RecBullet.maxStatement] else [])
    -- `_extract_monograph_duration_from_alerts` scans "Duration alert"
    -- entries, which `generate_structured_alerts` can never produce (its
    -- duration branch is dead code), so no duration bullet can appear.
    let bullets := bullets ++
      (match lookupA structIdx "Low dose/high dose based on Dose range based Alert" with
       | some (e :: _) => [RecBullet.doseRangeFirstLine e]
       | _ => [])
    let bullets := bullets ++
      (match lookupA structIdx "Low dose/high dose based on Health condition Alert" with
       | some (e :: _) => [RecBullet.healthCondFirstLine e]
       | _ => [])
    let bullets := bullets ++ (if hasAllergy then [RecBullet.allergyVerify] else [])
    let level := if level = "info" then severityFromAlerts structIdx hasAllergy else level
    { level := some level, primary := some primary, bullets := bullets, ranges := ranges }

/-! ## Assessment orchestration (`monograph/assess.py`) -/

def CONTRA_KEY_TERMS : List String :=
  ["pregnan", "third trimester", "breast", "lactat", "renal", "hepatic",
   "cabg", "asthma", "ulcer", "bleed"]

def INTERACT_DRUGS : List String :=
  ["warfarin", "aspirin", "lithium", "digoxin", "methotrexate", "cyclosporine",
   "tacrolimus", "diuretic", "ace inhibitor", "metformin", "ssri", "snri",
   "pemetrexed", "probenecid", "quinolone", "voriconazole", "rifampin"]

def insertIfAbsentC (l : List (List Char)) (x : List Char) : List (List Char) :=
  if x ∈ l then l else l ++ [x]

/-- `_find_contraindications`: lowercased lines matching `RE_CONTRA` or a
key term, stripped, deduplicated keeping first occurrences. -/
def findContraindications (textLinesLower : List (List Char)) : List (List Char) :=
  textLinesLower.foldl
    (fun out ln =>
      if searchB mContraSub ln || CONTRA_KEY_TERMS.any (fun k => containsSub k.data ln) then
        let k := stripChars ln
        if k.isEmpty then out else insertIfAbsentC out k
      else out)
    []

/-- `_find_interaction_lines`. -/
def findInteractionLines (textLinesLower : List (List Char)) : List (List Char) :=
  textLinesLower.foldl
    (fun out ln =>
      if searchB mInteract ln || INTERACT_DRUGS.any (fun d => containsSub d.data ln) then
        let k := stripChars ln
        if k.isEmpty then out else insertIfAbsentC out k
      else out)
    []

/-- `_infer_best_route_fallback` (assess.py). -/
def inferBestRouteFallback (di : DoseInfo) (proposedDoseText : String) : Option String :=
  match detectRouteInText proposedDoseText.data with
  | some ex => some ex
  | none =>
    if di.routeDoses.isEmpty then none
    else if hasKeyA di.routeDoses "Unspecified" then some "Unspecified"
    else (sortStrings (di.routeDoses.map (fun kv => kv.1))).head?

inductive DoseSummaryItem where
  | extractedInfoHeader
  | sentence (s : String)
  | classify (c : ClassifyRec)
deriving Repr, DecidableEq

structure ReportDetails where
  routeCases : List (String × RouteCase)
  proposedDoseParsed : ParsedDose
  monographDoseParsed : MonoParsed
  allContraindications : List (List Char)
  allInteractions : List (List Char)
  allDoseSentences : List String
  allMonitorLines : List (List Char)
  allergyEval : AllergyEval
  mgkgVals : List ℚ
  mgmlVals : List ℚ
  unitFormats : List String
deriving Repr, DecidableEq

/-- The structured report built by `assess` (HTML-rendering fields and the
polished-narrative duplicates are omitted; they are renderings of data
already present here). -/
structure Report where
  drug : String
  doseRoutes : List (String × List ℚ)
  routeUsed : Option String
  rangesSummaryRoute : Option String
  legacyAllergyAlerts : List LegacyAllergyAlert
  doseSummary : List DoseSummaryItem
  monitoring : List (List Char)
  contraindications : List (List Char)
  structuredAlerts : List StructAlertEntry
  dosageRecommendationStatus : Option String
  dosageRecommendationReasons : List String
  dosageRecommendations : RecOut
  details : ReportDetails
deriving Repr, DecidableEq

/-- The route `_safe_ranges_summary` reports first (the full one-line
summary string is a formatting of data already in the report; only the
chosen route is kept). -/
def safeRangesSummaryRoute (di : DoseInfo) (selectedRoute : Option String) :
    Option String :=
  match selectedRoute with
  | some r => if hasKeyA di.routeDoses r then some r else
      if hasKeyA di.routeDoses "Unspecified" then some "Unspecified"
      else (sortStrings (di.routeDoses.map (fun kv => kv.1))).head?
  | none =>
    if hasKeyA di.routeDoses "Unspecified" then some "Unspecified"
    else (sortStrings (di.routeDoses.map (fun kv => kv.1))).head?

/-- `assess`.

`extract_full_text` (BeautifulSoup HTML flattening) is the identity on the
already-plain monograph text, and the `last_state` content-keyed cache of
that flattening is transparent (its hit path returns what the miss path
computes).  The danger short-circuit on a direct allergy match at lines
579–615 of the source is the `if` below; its fixed recommendation dict
`{"primary": "Contraindicated due to allergy.", "bullets": []}` carries no
level key, hence `level := none`. -/
def assess (monographText : String) (drugName : String) (patientInfo : PatientInfo)
    (proposedDoseText : String) (route : Option String) (priority : Bool) : Report :=
  let fullText := monographText
  let textLines := ((splitLines fullText).map stripChars).filter (fun l => !l.isEmpty)
  let textLinesLower := textLines.map lowerStr
  let dosageInfo := extractDosageInfo fullText
  let contraLines := findContraindications textLinesLower
  let interactionLines := findInteractionLines textLinesLower
  let effectiveRoute :=
    match route with
    | some r => some r
    | none =>
      match detectRouteInText proposedDoseText.data with
      | some ex => some ex
      | none =>
        match inferBestRoute dosageInfo proposedDoseText with
        | some r => some r
        | none =>
          match pickRouteKeyForRange dosageInfo none with
          | some r => some r
          | none => inferBestRouteFallback dosageInfo proposedDoseText
  let monitorLines := textLines.filter (fun ln => searchB mMonitor ln)
  let legacyAllergyAlerts := findAllergyAlerts textLinesLower patientInfo.allergies
  let pd := parseProposedTotal proposedDoseText
  let proposedMg : Option ℚ :=
    if proposedDoseText.isEmpty then none
    else
      match pd.total with
      | some t => some t
      | none =>
        let mg := findAllPayload mDose proposedDoseText.data
        let g := (findAllPayload mDoseG proposedDoseText.data).map (fun x => x * 1000)
        let mcg := (findAllPayload mDoseMcg proposedDoseText.data).map (fun x => x / 1000)
        listMaxQ (mg ++ g ++ mcg)
  let parsedProposed := if proposedDoseText.isEmpty then (⟨none, none, none⟩ : ParsedDose) else pd
  let monographParsed := parseMonographDose fullText
  let doseSummary :=
    (if dosageInfo.doseSentences.isEmpty then []
     else DoseSummaryItem.extractedInfoHeader ::
       (dosageInfo.doseSentences.take 5).map DoseSummaryItem.sentence) ++
    (match proposedMg with
     | some pm => (classifyDose pm dosageInfo effectiveRoute priority).map
         DoseSummaryItem.classify
     | none => [])
  let structuredBase := (generateStructuredAlerts drugName monographText dosageInfo
    patientInfo proposedDoseText effectiveRoute).map StructAlertEntry.rule
  let allergyEval := evaluateAllergies patientInfo.allergies fullText drugName
  let structuredAlerts := structuredBase ++
    (match allergyEval.alert with
     | some a => [StructAlertEntry.allergy a]
     | none => [])
  let details : ReportDetails :=
    { routeCases := dosageInfo.routeCases,
      proposedDoseParsed := parsedProposed,
      monographDoseParsed := monographParsed,
      allContraindications := contraLines,
      allInteractions := interactionLines,
      allDoseSentences := dosageInfo.doseSentences,
      allMonitorLines := monitorLines,
      allergyEval := allergyEval,
      mgkgVals := dosageInfo.mgkgVals,
      mgmlVals := dosageInfo.mgmlVals,
      unitFormats := dosageInfo.unitFormats }
  if allergyEval.severity = "danger" then
    { drug := drugName,
      doseRoutes := dosageInfo.routeDoses,
      routeUsed := effectiveRoute,
      rangesSummaryRoute := safeRangesSummaryRoute dosageInfo effectiveRoute,
      legacyAllergyAlerts := legacyAllergyAlerts,
      doseSummary := doseSummary,
      monitoring := monitorLines.take 6,
      contraindications := contraLines.take 6,
      structuredAlerts := structuredAlerts,
      dosageRecommendationStatus := some "danger",
      dosageRecommendationReasons := ["Allergy contraindication detected (auto-classified)."],
      dosageRecommendations :=
        { level := none, primary := some RecPrimary.contraindicatedAllergy,
          bullets := [], ranges := RecRanges.mk none none none },
      details := details }
  else
    { drug := drugName,
      doseRoutes := dosageInfo.routeDoses,
      routeUsed := effectiveRoute,
      rangesSummaryRoute := safeRangesSummaryRoute dosageInfo effectiveRoute,
      legacyAllergyAlerts := legacyAllergyAlerts,
      doseSummary := doseSummary,
      monitoring := monitorLines.take 6,
      contraindications := contraLines.take 6,
      structuredAlerts := structuredAlerts,
      dosageRecommendationStatus := none,
      dosageRecommendationReasons := [],
      dosageRecommendations := deriveDosageRecommendations structuredAlerts
        legacyAllergyAlerts monographParsed dosageInfo proposedDoseText drugName
        effectiveRoute,
      details := details }

/-! ## Result cache (`app.py`) -/

/-- `_CACHE_MAX = 64`. -/
def cacheMax : Nat := 64

/-- A Python dict write `c[k] = v`: overwrite in place, or append. -/
def dictSetCache {β : Type} (c : List (String × β)) (k : String) (v : β) :
    List (String × β) :=
  if hasKeyA c k then c.map (fun kv => if kv.1 == k then (kv.1, v) else kv)
  else c ++ [(k, v)]

/-- `_cache_set` with the capacity as a parameter:
`if len(_CACHE) >= _CACHE_MAX: _CACHE.pop(next(iter(_CACHE)))` — the first
key of dict iteration is the first-inserted one, so the pop drops the head
of the insertion-ordered association list — then `_CACHE[k] = v`. -/
def cacheSetWith {β : Type} (maxN : Nat) (c : List (String × β)) (k : String) (v : β) :
    List (String × β) :=
  let c2 := if maxN ≤ c.length then c.tail else c
  dictSetCache c2 k v

/-- `_cache_set` at the source's capacity. -/
def cacheSet {β : Type} (c : List (String × β)) (k : String) (v : β) :
    List (String × β) :=
  cacheSetWith cacheMax c k v

/-! ## Invariants and observers referenced by the theorems -/

def isRenalLab : SAlert → Bool
  | SAlert.renalLab .. => true
  | _ => false

/-- Invariant: every per-route accumulated dose set is duplicate-free. -/
def RDInv (st : ExtState) : Prop := ∀ kv ∈ st.routeDoses, kv.2.Nodup

/-- What the `first_route` component of the `detect_route_near` loop state
means after scanning a list of mentions: none iff no mentions were seen,
otherwise an earliest-position mention (the first such in iteration
order). -/
def NearFirstInv (L : List (Nat × String)) : Option (Nat × String) → Prop
  | none => L = []
  | some f => f ∈ L ∧ ∀ m ∈ L, f.1 ≤ m.1

/-- What the `best_route` component of the `detect_route_near` loop state
means after scanning a list of mentions: none iff no mention starts at or
before the number's index, otherwise a latest-position such mention. -/
def NearBestInv (idx : Nat) (L : List (Nat × String)) : Option (Nat × String) → Prop
  | none => ∀ m ∈ L, idx < m.1
  | some b => b ∈ L ∧ b.1 ≤ idx ∧ ∀ m ∈ L, m.1 ≤ idx → m.1 ≤ b.1

/-! ## Helper lemmas -/

theorem hasKeyA_cons {β : Type} (a : String × β) (l : List (String × β)) (k : String) :
    hasKeyA (a :: l) k = ((a.1 == k) || hasKeyA l k) := by
  unfold hasKeyA lookupA
  rw [List.find?_cons]
  cases h : (a.1 == k) <;> simp [h]

theorem hasKeyA_iff {β : Type} (l : List (String × β)) (k : String) :
    hasKeyA l k = true ↔ k ∈ l.map Prod.fst := by
  induction l with
  | nil => simp [hasKeyA, lookupA]
  | cons a l ih =>
    rw [hasKeyA_cons]
    simp only [List.map_cons, List.mem_cons, Bool.or_eq_true, beq_iff_eq, ih]
    constructor
    · rintro (h | h)
      · exact Or.inl h.symm
      · exact Or.inr h
    · rintro (h | h)
      · exact Or.inl h.symm
      · exact Or.inr h

theorem hasKeyA_false_iff {β : Type} (l : List (String × β)) (k : String) :
    hasKeyA l k = false ↔ k ∉ l.map Prod.fst := by
  rw [← hasKeyA_iff]
  cases h : hasKeyA l k <;> simp [h]

theorem insertIfAbsent_nodup (l : List ℚ) (x : ℚ) (h : l.Nodup) :
    (insertIfAbsent l x).Nodup := by
  unfold insertIfAbsent
  split
  · exact h
  · next hx => simp [List.nodup_append, h, hx]

theorem foldl_preserve {α β : Type} (P : α → Prop) (f : α → β → α)
    (hf : ∀ a b, P a → P (f a b)) :
    ∀ (l : List β) (a : α), P a → P (l.foldl f a)
  | [], _, ha => ha
  | b :: l, a, ha => foldl_preserve P f hf l (f a b) (hf a b ha)

theorem foldlMin_le_init (l : List ℚ) (a : ℚ) :
    l.foldl (fun a b => if b < a then b else a) a ≤ a := by
  induction l generalizing a with
  | nil => simp
  | cons b l ih =>
    simp only [List.foldl_cons]
    refine le_trans (ih (if b < a then b else a)) ?_
    split
    · exact le_of_lt (by assumption)
    · exact le_rfl

theorem foldlMin_le_mem (l : List ℚ) (a : ℚ) :
    ∀ x ∈ l, l.foldl (fun a b => if b < a then b else a) a ≤ x := by
  induction l generalizing a with
  | nil => simp
  | cons b l ih =>
    intro x hx
    simp only [List.foldl_cons]
    rcases List.mem_cons.mp hx with h1 | h1
    · refine le_trans (foldlMin_le_init l _) ?_
      rw [h1]
      split
      · exact le_rfl
      · exact not_lt.mp (by assumption)
    · exact ih _ x h1

theorem init_le_foldlMax (l : List ℚ) (a : ℚ) :
    a ≤ l.foldl (fun a b => if a < b then b else a) a := by
  induction l generalizing a with
  | nil => simp
  | cons b l ih =>
    simp only [List.foldl_cons]
    refine le_trans ?_ (ih (if a < b then b else a))
    split
    · exact le_of_lt (by assumption)
    · exact le_rfl

theorem mem_le_foldlMax (l : List ℚ) (a : ℚ) :
    ∀ x ∈ l, x ≤ l.foldl (fun a b => if a < b then b else a) a := by
  induction l generalizing a with
  | nil => simp
  | cons b l ih =>
    intro x hx
    simp only [List.foldl_cons]
    rcases List.mem_cons.mp hx with h1 | h1
    · refine le_trans ?_ (init_le_foldlMax l _)
      rw [h1]
      split
      · exact le_rfl
      · exact not_lt.mp (by assumption)
    · exact ih _ x h1

theorem listMinQ_le {l : List ℚ} {mn : ℚ} (h : listMinQ l = some mn) :
    ∀ x ∈ l, mn ≤ x := by
  cases l with
  | nil => simp [listMinQ] at h
  | cons a l =>
    simp only [listMinQ, Option.some.injEq] at h
    subst h
    intro x hx
    rcases List.mem_cons.mp hx with h1 | h1
    · rw [h1]; exact foldlMin_le_init l a
    · exact foldlMin_le_mem l a x h1

theorem listMaxQ_ge {l : List ℚ} {mx : ℚ} (h : listMaxQ l = some mx) :
    ∀ x ∈ l, x ≤ mx := by
  cases l with
  | nil => simp [listMaxQ] at h
  | cons a l =>
    simp only [listMaxQ, Option.some.injEq] at h
    subst h
    intro x hx
    rcases List.mem_cons.mp hx with h1 | h1
    · rw [h1]; exact init_le_foldlMax l a
    · exact mem_le_foldlMax l a x h1

theorem listMinQ_isSome {l : List ℚ} (h : l ≠ []) : ∃ mn, listMinQ l = some mn := by
  cases l with
  | nil => simp at h
  | cons a l => exact ⟨_, rfl⟩

theorem listMaxQ_isSome {l : List ℚ} (h : l ≠ []) : ∃ mx, listMaxQ l = some mx := by
  cases l with
  | nil => simp at h
  | cons a l => exact ⟨_, rfl⟩

theorem listMinQ_le_listMaxQ {l : List ℚ} {mn mx : ℚ}
    (hmn : listMinQ l = some mn) (hmx : listMaxQ l = some mx) : mn ≤ mx := by
  cases l with
  | nil => simp [listMinQ] at hmn
  | cons a l =>
    exact le_trans (listMinQ_le hmn a (by simp)) (listMaxQ_ge hmx a (by simp))

/-! ## Cache lemmas and claim C9 -/

theorem dictSetCache_fresh {β : Type} (c : List (String × β)) (k : String) (v : β)
    (h : hasKeyA c k = false) : dictSetCache c k v = c ++ [(k, v)] := by
  unfold dictSetCache
  simp [h]

theorem hasKeyA_tail_false {β : Type} (c : List (String × β)) (k : String)
    (h : hasKeyA c k = false) : hasKeyA c.tail k = false := by
  rw [hasKeyA_false_iff] at *
  intro hk
  exact h (by
    cases c with
    | nil => simp at hk
    | cons a c => exact List.mem_cons_of_mem _ (by simpa using hk))

theorem cacheSetWith_fresh_lt {β : Type} (N : Nat) (c : List (String × β)) (k : String)
    (v : β) (hlt : c.length < N) (hk : hasKeyA c k = false) :
    cacheSetWith N c k v = c ++ [(k, v)] := by
  unfold cacheSetWith
  rw [if_neg (by omega)]
  exact dictSetCache_fresh c k v hk

theorem cacheSetWith_fresh_full {β : Type} (N : Nat) (c : List (String × β)) (k : String)
    (v : β) (hfull : N ≤ c.length) (hk : hasKeyA c k = false) :
    cacheSetWith N c k v = c.tail ++ [(k, v)] := by
  unfold cacheSetWith
  rw [if_pos hfull]
  exact dictSetCache_fresh c.tail k v (hasKeyA_tail_false c k hk)

theorem cache_fold_aux {β : Type} (N : Nat) (v : β) (hN : 1 ≤ N) :
    ∀ (ks : List String) (c : List (String × β)), c.length ≤ N → ks.Nodup →
      (∀ k ∈ ks, hasKeyA c k = false) →
      (ks.foldl (fun c k => cacheSetWith N c k v) c).length =
        min (c.length + ks.length) N := by
  intro ks
  induction ks with
  | nil => intro c hc _ _; simpa using hc
  | cons k ks ih =>
    intro c hc hnd hf
    simp only [List.foldl_cons]
    rcases lt_or_eq_of_le hc with hlt | heq
    · have hstep := cacheSetWith_fresh_lt N c k v hlt (hf k (by simp))
      rw [hstep]
      have hrec := ih (c ++ [(k, v)]) (by simp; omega) (List.Nodup.of_cons hnd) ?_
      · rw [hrec]
        simp only [List.length_append, List.length_cons, List.length_nil]
        omega
      · intro k2 hk2
        rw [hasKeyA_false_iff]
        simp only [List.map_append, List.mem_append]
        rintro (h2 | h2)
        · exact (hasKeyA_false_iff c k2).mp (hf k2 (List.mem_cons_of_mem _ hk2)) h2
        · have : k2 = k := by simpa using h2
          subst this
          exact (List.nodup_cons.mp hnd).1 hk2
    · have hfull : N ≤ c.length := le_of_eq heq.symm
      have hstep := cacheSetWith_fresh_full N c k v hfull (hf k (by simp))
      rw [hstep]
      have hclen : c ≠ [] := by
        intro h; rw [h] at heq; simp at heq; omega
      have htail : c.tail.length = c.length - 1 := by
        cases c with
        | nil => simp at hclen
        | cons a c => simp
      have hrec := ih (c.tail ++ [(k, v)]) ?_ (List.Nodup.of_cons hnd) ?_
      · rw [hrec]
        simp only [List.length_append, List.length_cons, List.length_nil]
        omega
      · simp only [List.length_append, List.length_cons, List.length_nil]
        omega
      · intro k2 hk2
        rw [hasKeyA_false_iff]
        simp only [List.map_append, List.mem_append]
        rintro (h2 | h2)
        · exact (hasKeyA_false_iff c.tail k2).mp
            (hasKeyA_tail_false c k2 (hf k2 (List.mem_cons_of_mem _ hk2))) h2
        · have : k2 = k := by simpa using h2
          subst this
          exact (List.nodup_cons.mp hnd).1 hk2

/-- Claim C9: for a result cache with capacity N (the source fixes
`_CACHE_MAX = 64`, abstracted as the parameter of `cacheSetWith`), starting
from an empty cache, inserting N+1 distinct fingerprints leaves exactly N
stored entries; and each insert performed while the cache is at capacity
removes exactly one existing entry (which one — here the first-inserted —
is implementation-defined). -/
theorem c9_cache_capacity :
    (∀ (N : Nat) (v : Nat) (ks : List String), 1 ≤ N → ks.Nodup →
      ks.length = N + 1 →
      (ks.foldl (fun c k => cacheSetWith N c k v) []).length = N) ∧
    (∀ (N : Nat) (v : Nat) (c : List (String × Nat)) (k : String),
      1 ≤ N → c.length = N → hasKeyA c k = false →
      (cacheSetWith N c k v).length = N ∧
      ∃ r ∈ c.map Prod.fst,
        (cacheSetWith N c k v).map Prod.fst = ((c.map Prod.fst).erase r) ++ [k]) := by
  constructor
  · intro N v ks hN hnd hlen
    have := cache_fold_aux N v hN ks [] (by simp) hnd (by intro k _; simp [hasKeyA, lookupA])
    rw [this, hlen]
    simp only [List.length_nil, Nat.zero_add]
    omega
  · intro N v c k hN hlen hk
    have hfull : N ≤ c.length := le_of_eq hlen.symm
    have hstep := cacheSetWith_fresh_full N c k v hfull hk
    cases c with
    | nil => simp at hlen; omega
    | cons a c =>
      rw [hstep]
      constructor
      · simp only [List.tail_cons, List.length_append, List.length_cons,
          List.length_nil] at *
        omega
      · refine ⟨a.1, by simp, ?_⟩
        simp [List.erase_cons_head]

theorem c9_cache_capacity_witness :
    (1 ≤ 2 ∧ (["a", "b", "c"] : List String).Nodup ∧
      (["a", "b", "c"] : List String).length = 2 + 1) ∧
    (["a", "b", "c"].foldl (fun c k => cacheSetWith 2 c k (0 : Nat)) []).length = 2 :=
  ⟨⟨by decide, by decide, by decide⟩,
   c9_cache_capacity.1 2 0 ["a", "b", "c"] (by decide) (by decide) (by decide)⟩

/-! ## Claim C3: parsing "450 mg/day" -/

/-- Claim C3 counterexample: both proposed-dose parsers leave the
frequency undetermined (`None`) for "450 mg/day" — they do not return
frequency 1 (matching the docstring of `_parse_proposed_total`, which
documents `'450 mg/day' -> (450.0, None, 450.0)`). -/
theorem c3_freq_counterexample :
    (parseProposedTotal "450 mg/day").freq = none ∧
    (parseDoseAndFreq "450 mg/day").freq = none ∧
    (parseProposedTotal "450 mg/day").freq ≠ some 1 ∧
    (parseDoseAndFreq "450 mg/day").freq ≠ some 1 := by
  decide

/-- Claim C3 (amended): parsing "450 mg/day" yields per_admin = 450 and
total = 450 in both the assessment-level and recommendation-level
proposed-dose parsers, with the frequency left undetermined (None) rather
than 1. -/
theorem c3_parse_450_mg_day :
    parseProposedTotal "450 mg/day" = ⟨some 450, none, some 450⟩ ∧
    parseDoseAndFreq "450 mg/day" = ⟨some 450, none, some 450⟩ := by
  decide

/-! ## Claim C8: severity combination -/

theorem severityRank_le_two (s : String) : severityRank s ≤ 2 := by
  unfold severityRank
  dsimp only
  split_ifs <;> omega

theorem maxSeverity_rank (a b : String) :
    severityRank (maxSeverity a b) = max (severityRank a) (severityRank b) := by
  unfold maxSeverity
  split
  · next h => omega
  · next h => omega

theorem maxSeverity_choice (a b : String) : maxSeverity a b = a ∨ maxSeverity a b = b := by
  unfold maxSeverity
  split
  · exact Or.inl rfl
  · exact Or.inr rfl

theorem sevStep_mono (c : ACond) (f : String → String) (hf : f ∈ allergySevFuns c)
    (s : String) : severityRank s ≤ severityRank (f s) := by
  have hmax : ∀ cond v s, severityRank s ≤ severityRank (sevStepMax cond v s) := by
    intro cond v s
    unfold sevStepMax
    split
    · rw [maxSeverity_rank]; omega
    · omega
  have hset : ∀ s, severityRank s ≤ severityRank (sevStepSet c.direct "danger" s) := by
    intro s
    unfold sevStepSet
    split
    · have := severityRank_le_two s
      have h2 : severityRank "danger" = 2 := by decide
      omega
    · omega
  have hhyp : ∀ s, severityRank s ≤ severityRank (sevStepHyp c.c9 s) := by
    intro s
    unfold sevStepHyp
    split
    · next h =>
      have hs : s = "info" := by
        have := (Bool.and_eq_true _ _).mp h
        exact eq_of_beq this.2
      rw [hs]
      decide
    · omega
  simp only [allergySevFuns, List.mem_cons, List.not_mem_nil, or_false] at hf
  rcases hf with h | h | h | h | h | h | h | h | h <;> subst h
  · exact hset s
  all_goals first
    | exact hmax _ _ s
    | exact hhyp s

theorem scanl_head (g : String → (String → String) → String) (b : String)
    (l : List (String → String)) : (List.scanl g b l).head? = some b := by
  cases l <;> simp [List.scanl]

theorem chain_scanl_app (fs : List (String → String)) (s : String)
    (h : ∀ f ∈ fs, ∀ x, severityRank x ≤ severityRank (f x)) :
    List.Chain' (fun a b => severityRank a ≤ severityRank b)
      (List.scanl (fun s f => f s) s fs) := by
  induction fs generalizing s with
  | nil => simp [List.scanl]
  | cons f fs ih =>
    rw [List.scanl]
    rw [List.chain'_cons']
    constructor
    · intro y hy
      rw [scanl_head] at hy
      cases hy
      exact h f (by simp) s
    · exact ih (f s) (fun g hg x => h g (List.mem_cons_of_mem _ hg) x)

theorem foldl_eq_getLastD_scanl (fs : List (String → String)) (s d : String) :
    List.foldl (fun s f => f s) s fs =
      (List.scanl (fun s f => f s) s fs).getLastD d := by
  induction fs generalizing s d with
  | nil => simp [List.scanl]
  | cons f fs ih =>
    rw [List.scanl, List.foldl_cons, List.getLastD_cons]
    exact ih (f s) s

/-- Claim C8: severity combination is the maximum under
info < caution < danger — `_max_severity(a, b)` returns one of its
arguments and its rank is the larger rank — and across the ordered rule
steps of one `evaluate_allergies` call the running severity value (the
trace from "info" through every update to the returned severity) never
decreases in rank. -/
theorem c8_severity_max_monotone :
    (∀ a b : String,
      severityRank (maxSeverity a b) = max (severityRank a) (severityRank b) ∧
      (maxSeverity a b = a ∨ maxSeverity a b = b)) ∧
    (∀ (allergies : List String) (mono drug : String),
      List.Chain' (fun x y => severityRank x ≤ severityRank y)
        (severityTrace allergies mono drug) ∧
      (evaluateAllergies allergies mono drug).severity =
        (severityTrace allergies mono drug).getLastD "info") := by
  constructor
  · intro a b
    exact ⟨maxSeverity_rank a b, maxSeverity_choice a b⟩
  · intro allergies mono drug
    constructor
    · exact chain_scanl_app _ _
        (fun f hf x => sevStep_mono (allergyConds allergies mono drug) f hf x)
    · unfold severityTrace
      rw [← foldl_eq_getLastD_scanl]
      rfl

/-! ## Claim C10: empty/absent allergy list -/

theorem allergyConds_nil (mono drug : String) :
    allergyConds [] mono drug =
      ⟨false, false, false, false, false, false, false, false, false⟩ := by
  have hptoks : expandSynonyms (normalizeTokens []) = [] := by rfl
  unfold allergyConds
  rw [hptoks]
  simp [interNonemptyB]

/-- Claim C10: for every monograph text and drug name, if the patient's
allergy list is empty (or absent — the source normalizes a missing list to
`[]`), `evaluate_allergies` returns severity "info", no direct drug
allergy, and no alert bundle, even when the monograph contains
hypersensitivity, contraindication, or NSAID cross-reactivity language. -/
theorem c10_empty_allergies_info (mono drug : String) :
    (evaluateAllergies [] mono drug).severity = "info" ∧
    (evaluateAllergies [] mono drug).directDrugAllergy = false ∧
    (evaluateAllergies [] mono drug).alert = none := by
  unfold evaluateAllergies
  rw [allergyConds_nil]
  simp [allergySevFuns, sevStepSet, sevStepMax, sevStepHyp]

/-! ## Claim C1: direct drug-allergy match overrides everything -/

theorem interNonemptyB_nil_right (a : List String) : interNonemptyB a [] = false := by
  simp [interNonemptyB]

theorem c1_direct_true (allergies : List String) (mono drug : String)
    (h : interNonemptyB (expandSynonyms (normalizeTokens allergies)) (drugToks drug) = true) :
    (allergyConds allergies mono drug).direct = true := by
  cases hc : (drugNormChars drug).isEmpty with
  | true =>
    exfalso
    unfold drugToks at h
    rw [if_pos hc, interNonemptyB_nil_right] at h
    simp at h
  | false =>
    unfold allergyConds
    unfold drugToks at h
    rw [if_neg (by simp [hc])] at h
    simp only [hc]
    simp only [Bool.not_false, Bool.true_and]
    rw [if_neg (by simp)]
    exact h

theorem foldl_app_fix (fs : List (String → String)) (x : String)
    (h : ∀ f ∈ fs, f x = x) : fs.foldl (fun s f => f s) x = x := by
  induction fs with
  | nil => rfl
  | cons f fs ih =>
    rw [List.foldl_cons, h f (by simp)]
    exact ih (fun g hg => h g (List.mem_cons_of_mem _ hg))

theorem sevStepMax_danger (cond : Bool) (v : String) :
    sevStepMax cond v "danger" = "danger" := by
  have h2 : severityRank "danger" = 2 := by decide
  unfold sevStepMax
  split
  · unfold maxSeverity
    rw [if_pos (by rw [h2]; exact severityRank_le_two v)]
  · rfl

theorem sevStepHyp_danger (cond : Bool) : sevStepHyp cond "danger" = "danger" := by
  unfold sevStepHyp
  simp

theorem c1_severity_danger (allergies : List String) (mono drug : String)
    (h : interNonemptyB (expandSynonyms (normalizeTokens allergies)) (drugToks drug) = true) :
    (evaluateAllergies allergies mono drug).severity = "danger" := by
  have hd := c1_direct_true allergies mono drug h
  show (allergySevFuns (allergyConds allergies mono drug)).foldl (fun s f => f s) "info" =
    "danger"
  unfold allergySevFuns
  rw [List.foldl_cons]
  have hstep1 : sevStepSet (allergyConds allergies mono drug).direct "danger" "info" =
      "danger" := by
    unfold sevStepSet
    rw [hd]
    rfl
  rw [hstep1]
  apply foldl_app_fix
  intro f hf
  simp only [List.mem_cons, List.not_mem_nil, or_false] at hf
  rcases hf with h1 | h1 | h1 | h1 | h1 | h1 | h1 | h1 <;> subst h1
  all_goals first
    | exact sevStepMax_danger _ _
    | exact sevStepHyp_danger _

/-- Claim C1: whenever the patient's (synonym-expanded, normalized) allergy
tokens overlap the prescribed drug's token set as `evaluate_allergies`
builds it, the allergy evaluator reports severity "danger" with a direct
drug allergy, and — for every monograph text, proposed-dose text, route and
priority flag, i.e. regardless of any dose-range or alert evidence — the
assessment report's `dosage_recommendation_status` is "danger" and the
standard recommendation derivation is suppressed in favour of the fixed
contraindication statement with no supporting bullets. -/
theorem c1_direct_allergy_danger (mono drug pd : String) (pi : PatientInfo)
    (route : Option String) (prio : Bool)
    (h : interNonemptyB (expandSynonyms (normalizeTokens pi.allergies))
      (drugToks drug) = true) :
    (evaluateAllergies pi.allergies mono drug).severity = "danger" ∧
    (evaluateAllergies pi.allergies mono drug).directDrugAllergy = true ∧
    (assess mono drug pi pd route prio).dosageRecommendationStatus = some "danger" ∧
    (assess mono drug pi pd route prio).dosageRecommendations.primary =
      some RecPrimary.contraindicatedAllergy ∧
    (assess mono drug pi pd route prio).dosageRecommendations.bullets = [] := by
  have hsev := c1_severity_danger pi.allergies mono drug h
  have hdir : (evaluateAllergies pi.allergies mono drug).directDrugAllergy = true :=
    c1_direct_true pi.allergies mono drug h
  refine ⟨hsev, hdir, ?_, ?_, ?_⟩ <;>
    · unfold assess
      simp only [hsev]
      simp

theorem c1_direct_allergy_danger_witness :
    interNonemptyB (expandSynonyms (normalizeTokens ["aspirin"])) (drugToks "Aspirin") =
      true ∧
    (assess "" "Aspirin"
        (PatientInfo.mk none "" none false false "" "" none none none none "" ["aspirin"] [])
        "" none true).dosageRecommendationStatus = some "danger" :=
  ⟨by decide,
   (c1_direct_allergy_danger "" "Aspirin" ""
      (PatientInfo.mk none "" none false false "" "" none none none none "" ["aspirin"] [])
      none true (by decide)).2.2.1⟩

/-! ## Claim C2: dose classification against a non-empty fixed-mg list -/

/-- Claim C2: for every proposed mg value and every route whose fixed-mg
dose list in the profile is non-empty, `classify_dose` emits exactly one
classification record; it states "within" iff min ≤ proposed ≤ max,
"below" iff proposed < min, "above" iff proposed > max, with level
"caution" for below/above and "info" for within. -/
theorem c2_classify_dose (p : ℚ) (di : DoseInfo) (r : String) (vals : List ℚ)
    (prio : Bool) (hv : lookupA di.routeDoses r = some vals) (hne : vals ≠ []) :
    ∃ mn mx rec,
      listMinQ vals = some mn ∧ listMaxQ vals = some mx ∧
      classifyDose p di (some r) prio = [rec] ∧
      (rec.text = ClassText.within p mn mx ↔ mn ≤ p ∧ p ≤ mx) ∧
      (rec.text = ClassText.below p mn mx ↔ p < mn) ∧
      (rec.text = ClassText.above p mn mx ↔ mx < p) ∧
      rec.level = (if mn ≤ p ∧ p ≤ mx then "info" else "caution") := by
  obtain ⟨mn, hmn⟩ := listMinQ_isSome hne
  obtain ⟨mx, hmx⟩ := listMaxQ_isSome hne
  have hmnmx := listMinQ_le_listMaxQ hmn hmx
  have hkey : hasKeyA di.routeDoses r = true := by
    unfold hasKeyA
    rw [hv]
    rfl
  have hcd : classifyDose p di (some r) prio = classifyAgainst p vals := by
    simp only [classifyDose]
    rw [hkey]
    simp only [if_true, hv, Option.getD_some]
  have hle : vals.isEmpty = false := by
    cases vals with
    | nil => exact absurd rfl hne
    | cons a l => rfl
  have hca : classifyAgainst p vals =
      (if p < mn then [⟨ClassText.below p mn mx, "caution"⟩]
       else if mx < p then [⟨ClassText.above p mn mx, "caution"⟩]
       else [⟨ClassText.within p mn mx, "info"⟩]) := by
    unfold classifyAgainst
    rw [hle, hmn, hmx]
    rfl
  rw [hcd, hca]
  by_cases h1 : p < mn
  · refine ⟨mn, mx, _, hmn, hmx, by rw [if_pos h1], ?_, ?_, ?_, ?_⟩
    · constructor
      · intro hc; simp at hc
      · intro hc; exfalso; linarith [hc.1]
    · exact ⟨fun _ => h1, fun _ => rfl⟩
    · constructor
      · intro hc; simp at hc
      · intro hc; exfalso; linarith
    · rw [if_neg (fun hc => absurd hc.1 (not_le.mpr h1))]
  · by_cases h2 : mx < p
    · refine ⟨mn, mx, _, hmn, hmx, by rw [if_neg h1, if_pos h2], ?_, ?_, ?_, ?_⟩
      · constructor
        · intro hc; simp at hc
        · intro hc; exfalso; linarith [hc.2]
      · constructor
        · intro hc; simp at hc
        · intro hc; exact absurd hc h1
      · exact ⟨fun _ => h2, fun _ => rfl⟩
      · rw [if_neg (fun hc => absurd hc.2 (not_le.mpr h2))]
    · refine ⟨mn, mx, _, hmn, hmx, by rw [if_neg h1, if_neg h2], ?_, ?_, ?_, ?_⟩
      · exact ⟨fun _ => ⟨not_lt.mp h1, not_lt.mp h2⟩, fun _ => rfl⟩
      · constructor
        · intro hc; simp at hc
        · intro hc; exact absurd hc h1
      · constructor
        · intro hc; simp at hc
        · intro hc; exact absurd hc h2
      · rw [if_pos ⟨not_lt.mp h1, not_lt.mp h2⟩]

theorem c2_classify_dose_witness :
    (lookupA (DoseInfo.mk [] [("Oral", [100, 200])] [] [] [] [] [] [] [] []).routeDoses
        "Oral" = some [100, 200] ∧ ([(100 : ℚ), 200] : List ℚ) ≠ []) ∧
    (∃ mn mx rec,
      listMinQ [(100 : ℚ), 200] = some mn ∧ listMaxQ [(100 : ℚ), 200] = some mx ∧
      classifyDose 150 (DoseInfo.mk [] [("Oral", [100, 200])] [] [] [] [] [] [] [] [])
        (some "Oral") true = [rec] ∧
      (rec.text = ClassText.within 150 mn mx ↔ mn ≤ 150 ∧ 150 ≤ mx) ∧
      (rec.text = ClassText.below 150 mn mx ↔ 150 < mn) ∧
      (rec.text = ClassText.above 150 mn mx ↔ mx < 150) ∧
      rec.level = (if mn ≤ 150 ∧ 150 ≤ mx then "info" else "caution")) :=
  ⟨⟨by decide, by decide⟩,
   c2_classify_dose 150 (DoseInfo.mk [] [("Oral", [100, 200])] [] [] [] [] [] [] [] [])
     "Oral" [100, 200] true (by decide) (by decide)⟩

/-! ## Claim C4: renal alerts -/

theorem c4_renal_lab_never (drug mono : String) (di : DoseInfo) (pi : PatientInfo)
    (pd : String) (rt : Option String) :
    (generateStructuredAlerts drug mono di pi pd rt).all (fun a => !isRenalLab a) = true := by
  unfold generateStructuredAlerts
  simp only [List.all_append, Bool.and_eq_true]
  repeat' constructor
  all_goals repeat' split
  all_goals simp_all [isRenalLab]

/-- Claim C4 (code bug): the lab-value renal caution alert
("interval extension / dose reduction", type "Renal dose alert based on
Lab values (eGFR, CRCL, Serum creatinine)") can NEVER be emitted, for any
input — the parsed eGFR/CrCl values are discarded by the `locals()[k] = val`
write, so the evaluator sees them as absent — and a patient who supplies
eGFR = 20 (< 30) with a parseable proposed mg value and the renal-impairment
flag receives only the "no eGFR/CrCl provided" info alert instead. -/
theorem c4_renal_caution_dead_code :
    (∀ (drug mono : String) (di : DoseInfo) (pi : PatientInfo) (pd : String)
        (rt : Option String),
      (generateStructuredAlerts drug mono di pi pd rt).all
        (fun a => !isRenalLab a) = true) ∧
    generateStructuredAlerts "Cefepime" "" (extractDosageInfo "")
        (PatientInfo.mk none "" none false false "yes" "" (some 20) none none none
          "" [] [])
        "100 mg" none =
      [SAlert.absDigest 100, SAlert.ageMissing "Cefepime",
       SAlert.renalNoLabs "Cefepime"] :=
  ⟨c4_renal_lab_never, by decide⟩

/-! ## Claim C7: route inference -/

theorem hasKeyA_append {β : Type} (l1 l2 : List (String × β)) (k : String) :
    hasKeyA (l1 ++ l2) k = (hasKeyA l1 k || hasKeyA l2 k) := by
  induction l1 with
  | nil =>
    simp only [List.nil_append, Bool.false_or]
    rw [show hasKeyA ([] : List (String × β)) k = false from rfl]
    simp
  | cons a l ih => simp [hasKeyA_cons, ih, Bool.or_assoc]

theorem dictSetZ_fresh (l : List (String × ℤ)) (k : String) (v : ℤ)
    (h : hasKeyA l k = false) : dictSetZ l k v = l ++ [(k, v)] := by
  unfold dictSetZ
  simp [h]

theorem dictSetZ_fold_fresh :
    ∀ (l : List (String × RouteCase)) (acc : List (String × ℤ)),
      (∀ rc ∈ l, hasKeyA acc rc.1 = false) → (l.map Prod.fst).Nodup →
      l.foldl (fun acc rc => dictSetZ acc rc.1 (scoreOfCase rc)) acc =
        acc ++ l.map (fun rc => (rc.1, scoreOfCase rc)) := by
  intro l
  induction l with
  | nil => intro acc _ _; simp
  | cons rc l ih =>
    intro acc hf hnd
    have hndp : rc.1 ∉ l.map Prod.fst ∧ (l.map Prod.fst).Nodup := by
      rw [List.map_cons, List.nodup_cons] at hnd
      exact hnd
    simp only [List.foldl_cons]
    rw [dictSetZ_fresh acc rc.1 (scoreOfCase rc) (hf rc (by simp))]
    rw [ih (acc ++ [(rc.1, scoreOfCase rc)]) ?_ ?_]
    · simp
    · intro rc2 hrc2
      rw [hasKeyA_append]
      have h1 : hasKeyA acc rc2.1 = false := hf rc2 (List.mem_cons_of_mem _ hrc2)
      have h2 : hasKeyA [(rc.1, scoreOfCase rc)] rc2.1 = false := by
        rw [hasKeyA_false_iff]
        simp only [List.map_cons, List.map_nil, List.mem_singleton]
        intro hc
        exact hndp.1 (hc ▸ List.mem_map_of_mem Prod.fst hrc2)
      rw [h1, h2]
      rfl
    · exact hndp.2

theorem foldlMaxZ_mem (l : List ℤ) (a : ℤ) :
    l.foldl (fun a b => if a < b then b else a) a ∈ a :: l := by
  induction l generalizing a with
  | nil => simp
  | cons b l ih =>
    simp only [List.foldl_cons]
    rcases List.mem_cons.mp (ih (if a < b then b else a)) with h | h
    · rw [h]
      split
      · simp
      · simp
    · exact List.mem_cons_of_mem _ (List.mem_cons_of_mem _ h)

theorem init_le_foldlMaxZ (l : List ℤ) (a : ℤ) :
    a ≤ l.foldl (fun a b => if a < b then b else a) a := by
  induction l generalizing a with
  | nil => simp
  | cons b l ih =>
    simp only [List.foldl_cons]
    refine le_trans ?_ (ih (if a < b then b else a))
    split
    · exact le_of_lt (by assumption)
    · exact le_rfl

theorem mem_le_foldlMaxZ (l : List ℤ) (a : ℤ) :
    ∀ x ∈ l, x ≤ l.foldl (fun a b => if a < b then b else a) a := by
  induction l generalizing a with
  | nil => simp
  | cons b l ih =>
    intro x hx
    simp only [List.foldl_cons]
    rcases List.mem_cons.mp hx with h1 | h1
    · refine le_trans ?_ (init_le_foldlMaxZ l _)
      rw [h1]
      split
      · exact le_rfl
      · exact not_lt.mp (by assumption)
    · exact ih _ x h1

theorem listMaxZ_spec {l : List ℤ} {m : ℤ} (h : listMaxZ l = some m) :
    m ∈ l ∧ ∀ x ∈ l, x ≤ m := by
  cases l with
  | nil => simp [listMaxZ] at h
  | cons a l =>
    simp only [listMaxZ, Option.some.injEq] at h
    subst h
    refine ⟨foldlMaxZ_mem l a, ?_⟩
    intro x hx
    rcases List.mem_cons.mp hx with h1 | h1
    · rw [h1]; exact init_le_foldlMaxZ l a
    · exact mem_le_foldlMaxZ l a x h1

theorem find?_min_indexOf (p : String → Bool) :
    ∀ (l : List String) (a : String), l.find? p = some a →
      a ∈ l ∧ p a = true ∧ ∀ b ∈ l, p b = true → l.indexOf a ≤ l.indexOf b := by
  intro l
  induction l with
  | nil => intro a h; simp at h
  | cons x l ih =>
    intro a h
    rw [List.find?_cons] at h
    cases hx : p x with
    | true =>
      rw [hx] at h
      cases h
      exact ⟨by simp, hx, by intro b _ _; simp [List.indexOf_cons_self]⟩
    | false =>
      rw [hx] at h
      obtain ⟨hmem, hpa, hmin⟩ := ih a h
      have hax : x ≠ a := by
        intro hc
        rw [← hc] at hpa
        rw [hpa] at hx
        cases hx
      refine ⟨List.mem_cons_of_mem _ hmem, hpa, ?_⟩
      intro b hb hpb
      have hbx : x ≠ b := by
        intro hc
        rw [← hc] at hpb
        rw [hpb] at hx
        cases hx
      have hbmem : b ∈ l := by
        rcases List.mem_cons.mp hb with h1 | h1
        · exact absurd h1.symm hbx
        · exact h1
      rw [List.indexOf_cons_ne _ (by simpa using hax),
          List.indexOf_cons_ne _ (by simpa using hbx)]
      exact Nat.succ_le_succ (hmin b hbmem hpb)

theorem sortStrings_head_mem {l : List String} (h : l ≠ []) :
    ∃ r, (sortStrings l).head? = some r ∧ r ∈ l := by
  have hp : (sortStrings l).Perm l := List.perm_insertionSort _ l
  cases hs : sortStrings l with
  | nil =>
    exfalso
    rw [hs] at hp
    exact h (List.Perm.nil_eq hp).symm
  | cons r rest =>
    refine ⟨r, rfl, ?_⟩
    rw [hs] at hp
    exact hp.mem_iff.mp (by simp)

/-- Claim C7: when no route is supplied (the caller passes none) and none
is detected in the proposed-dose text, route inference over a profile with
distinct route keys returns none iff the profile has no route cases at all,
and otherwise selects a case with the maximum score
`2×(#fixed-mg values) + (#supporting sentences)` (− 2 for "Unspecified"),
breaking ties among maximum-score routes by the fixed ROUTE_PRIORITY
ordering (Oral, Intravenous, Intramuscular, …, Epidural). -/
theorem c7_infer_best_route (di : DoseInfo) (pd : String)
    (hnr : detectRouteInText pd.data = none)
    (hnd : (di.routeCases.map Prod.fst).Nodup) :
    (di.routeCases = [] → inferBestRoute di pd = none) ∧
    (di.routeCases ≠ [] →
      ∃ rc, rc ∈ di.routeCases ∧ inferBestRoute di pd = some rc.1 ∧
        (∀ rc2 ∈ di.routeCases, scoreOfCase rc2 ≤ scoreOfCase rc) ∧
        (∀ rc2 ∈ di.routeCases, scoreOfCase rc2 = scoreOfCase rc →
          rc2.1 ∈ ROUTE_PRIORITY →
          ROUTE_PRIORITY.indexOf rc.1 ≤ ROUTE_PRIORITY.indexOf rc2.1)) := by
  have hopen : inferBestRoute di pd =
      (if di.routeCases.isEmpty then none
       else
        let scores := di.routeCases.foldl
          (fun acc rc => dictSetZ acc rc.1 (scoreOfCase rc)) []
        if scores.isEmpty then none
        else
          match listMaxZ (scores.map (fun kv => kv.2)) with
          | none => none
          | some maxScore =>
            let candidates := scores.filterMap
              (fun kv => if kv.2 = maxScore then some kv.1 else none)
            match ROUTE_PRIORITY.find? (fun pr => candidates.contains pr) with
            | some pr => some pr
            | none => (sortStrings candidates).head?) := by
    unfold inferBestRoute
    rw [hnr]
  constructor
  · intro h
    rw [hopen, h]
    rfl
  · intro hne
    have hie : di.routeCases.isEmpty = false := by
      cases h : di.routeCases with
      | nil => exact absurd h hne
      | cons a l => rfl
    have hscores : di.routeCases.foldl
        (fun acc rc => dictSetZ acc rc.1 (scoreOfCase rc)) [] =
        di.routeCases.map (fun rc => (rc.1, scoreOfCase rc)) := by
      rw [dictSetZ_fold_fresh di.routeCases [] (fun rc _ => rfl) hnd]
      rfl
    have hie2 : (di.routeCases.map (fun rc => (rc.1, scoreOfCase rc))).isEmpty = false := by
      cases h : di.routeCases with
      | nil => exact absurd h hne
      | cons a l => rfl
    have hvals : ((di.routeCases.map (fun rc => (rc.1, scoreOfCase rc))).map
        (fun kv => kv.2)) = di.routeCases.map scoreOfCase := by
      rw [List.map_map]
      rfl
    obtain ⟨M, hM⟩ : ∃ M, listMaxZ (di.routeCases.map scoreOfCase) = some M := by
      cases h : di.routeCases with
      | nil => exact absurd h hne
      | cons a l => exact ⟨_, rfl⟩
    obtain ⟨hMmem, hMub⟩ := listMaxZ_spec hM
    have hcand : ∀ r : String,
        (r ∈ (di.routeCases.map (fun rc => (rc.1, scoreOfCase rc))).filterMap
          (fun kv => if kv.2 = M then some kv.1 else none)
        ↔ ∃ rc, rc ∈ di.routeCases ∧ scoreOfCase rc = M ∧ rc.1 = r) := by
      intro r
      rw [List.filterMap_map, List.mem_filterMap]
      constructor
      · rintro ⟨rc, hrc, heq⟩
        by_cases hs : scoreOfCase rc = M
        · refine ⟨rc, hrc, hs, ?_⟩
          simp only [Function.comp_apply, hs, if_pos, Option.some.injEq] at heq
          exact heq
        · exfalso
          simp only [Function.comp_apply, hs, if_neg, if_false] at heq
          exact Option.noConfusion heq
      · rintro ⟨rc, hrc, hs, hr⟩
        refine ⟨rc, hrc, ?_⟩
        simp only [Function.comp_apply, hs, if_pos, hr]
    set candidates := (di.routeCases.map (fun rc => (rc.1, scoreOfCase rc))).filterMap
      (fun kv => if kv.2 = M then some kv.1 else none) with hcandsdef
    have hcandne : candidates ≠ [] := by
      obtain ⟨rc0, hrc0, hsc0⟩ := List.mem_map.mp hMmem
      have : rc0.1 ∈ candidates := (hcand rc0.1).mpr ⟨rc0, hrc0, hsc0, rfl⟩
      exact List.ne_nil_of_mem this
    have hresult : inferBestRoute di pd =
        (match ROUTE_PRIORITY.find? (fun pr => candidates.contains pr) with
         | some pr => some pr
         | none => (sortStrings candidates).head?) := by
      rw [hopen]
      rw [if_neg (by rw [hie]; exact Bool.false_ne_true)]
      simp only [hscores, hie2, hvals, hM]
      rw [if_neg (by exact Bool.false_ne_true)]
    cases hfind : ROUTE_PRIORITY.find? (fun pr => candidates.contains pr) with
    | some pr =>
      obtain ⟨hprmem, hprp, hprmin⟩ := find?_min_indexOf _ ROUTE_PRIORITY pr hfind
      have hprc : pr ∈ candidates := by simpa using hprp
      obtain ⟨rc, hrcmem, hrcsc, hrc1⟩ := (hcand pr).mp hprc
      refine ⟨rc, hrcmem, ?_, ?_, ?_⟩
      · rw [hresult, hfind, hrc1]
      · intro rc2 hrc2
        rw [hrcsc]
        exact hMub _ (List.mem_map_of_mem scoreOfCase hrc2)
      · intro rc2 hrc2 hsc2 hpr2
        have hc2 : rc2.1 ∈ candidates :=
          (hcand rc2.1).mpr ⟨rc2, hrc2, by rw [hsc2, hrcsc], rfl⟩
        have := hprmin rc2.1 hpr2 (by simpa using hc2)
        rw [hrc1]
        exact this
    | none =>
      rw [List.find?_eq_none] at hfind
      obtain ⟨r, hhead, hrmem⟩ := sortStrings_head_mem hcandne
      obtain ⟨rc, hrcmem, hrcsc, hrc1⟩ := (hcand r).mp hrmem
      refine ⟨rc, hrcmem, ?_, ?_, ?_⟩
      · rw [hresult]
        rw [show ROUTE_PRIORITY.find? (fun pr => candidates.contains pr) = none from
          List.find?_eq_none.mpr hfind]
        rw [hhead, hrc1]
      · intro rc2 hrc2
        rw [hrcsc]
        exact hMub _ (List.mem_map_of_mem scoreOfCase hrc2)
      · intro rc2 hrc2 hsc2 hpr2
        exfalso
        have hc2 : rc2.1 ∈ candidates :=
          (hcand rc2.1).mpr ⟨rc2, hrc2, by rw [hsc2, hrcsc], rfl⟩
        exact hfind rc2.1 hpr2 (by simpa using hc2)

theorem c7_infer_best_route_witness :
    (detectRouteInText ("" : String).data = none ∧
     (([("Oral", RouteCase.mk [100] ["Oral 100 mg"])].map Prod.fst)).Nodup ∧
     ([("Oral", RouteCase.mk [100] ["Oral 100 mg"])] :
        List (String × RouteCase)) ≠ []) ∧
    (∃ rc, rc ∈ [("Oral", RouteCase.mk [100] ["Oral 100 mg"])] ∧
      inferBestRoute
        (DoseInfo.mk [] [] [] [] [] [] [] [] []
          [("Oral", RouteCase.mk [100] ["Oral 100 mg"])]) "" = some rc.1 ∧
      (∀ rc2 ∈ [("Oral", RouteCase.mk [100] ["Oral 100 mg"])],
        scoreOfCase rc2 ≤ scoreOfCase rc) ∧
      (∀ rc2 ∈ [("Oral", RouteCase.mk [100] ["Oral 100 mg"])],
        scoreOfCase rc2 = scoreOfCase rc → rc2.1 ∈ ROUTE_PRIORITY →
        ROUTE_PRIORITY.indexOf rc.1 ≤ ROUTE_PRIORITY.indexOf rc2.1)) :=
  ⟨⟨by decide, by decide, by decide⟩,
   (c7_infer_best_route
      (DoseInfo.mk [] [] [] [] [] [] [] [] []
        [("Oral", RouteCase.mk [100] ["Oral 100 mg"])]) ""
      (by decide) (by decide)).2 (by decide)⟩

/-! ## Claim C6: route_doses lists are strictly sorted -/

theorem addToAssocQ_nodup (l : List (String × List ℚ)) (k : String) (x : ℚ)
    (h : ∀ kv ∈ l, kv.2.Nodup) : ∀ kv ∈ addToAssocQ l k x, kv.2.Nodup := by
  unfold addToAssocQ
  split
  · intro kv hkv
    obtain ⟨kv0, hkv0, hmap⟩ := List.mem_map.mp hkv
    by_cases hk : (kv0.1 == k) = true
    · rw [if_pos hk] at hmap
      rw [← hmap]
      exact insertIfAbsent_nodup _ _ (h kv0 hkv0)
    · rw [if_neg hk] at hmap
      rw [← hmap]
      exact h kv0 hkv0
  · intro kv hkv
    rcases List.mem_append.mp hkv with h1 | h1
    · exact h kv h1
    · have : kv = (k, [x]) := by simpa using h1
      rw [this]
      simp
theorem mgMatchStep_rdinv (sClean : List Char) (ctx : Option String) (st : ExtState)
    (t : Nat × Nat × ℚ) (h : RDInv st) : RDInv (mgMatchStep sClean ctx st t) := by
  unfold mgMatchStep
  dsimp only
  split
  · exact h
  · exact addToAssocQ_nodup _ _ _ h

theorem gMatchStep_rdinv (sClean : List Char) (ctx : Option String) (st : ExtState)
    (t : Nat × Nat × ℚ) (h : RDInv st) : RDInv (gMatchStep sClean ctx st t) :=
  addToAssocQ_nodup _ _ _ h

theorem mcgMatchStep_rdinv (sClean : List Char) (ctx : Option String) (st : ExtState)
    (t : Nat × Nat × ℚ) (h : RDInv st) : RDInv (mcgMatchStep sClean ctx st t) :=
  addToAssocQ_nodup _ _ _ h

theorem mgkgMatchStep_rdinv (sClean : List Char) (ctx : Option String) (st : ExtState)
    (t : Nat × Nat × ℚ) (h : RDInv st) : RDInv (mgkgMatchStep sClean ctx st t) := h

theorem mgmlMatchStep_rdinv (sClean : List Char) (ctx : Option String) (st : ExtState)
    (t : Nat × Nat × ℚ) (h : RDInv st) : RDInv (mgmlMatchStep sClean ctx st t) := h

theorem rdinv_ite_ufrs (b : Prop) [Decidable b] (stX : ExtState)
    (uf : List String) (rs : List (String × List String)) (h : RDInv stX) :
    RDInv (if b then { stX with unitFormats := uf, routeSentences := rs } else stX) := by
  split
  · exact h
  · exact h

theorem processSentence_rdinv : ∀ (st : ExtState) (piece : List Char),
    RDInv st → RDInv (processSentence st piece) := by
  intro st piece h
  unfold processSentence
  dsimp only
  split
  · exact h
  · split
    · exact h
    · apply rdinv_ite_ufrs
      apply rdinv_ite_ufrs
      apply foldl_preserve RDInv _ (fun a b ha => mgmlMatchStep_rdinv _ _ a b ha)
      apply foldl_preserve RDInv _ (fun a b ha => mgkgMatchStep_rdinv _ _ a b ha)
      apply foldl_preserve RDInv _ (fun a b ha => mcgMatchStep_rdinv _ _ a b ha)
      apply foldl_preserve RDInv _ (fun a b ha => gMatchStep_rdinv _ _ a b ha)
      apply foldl_preserve RDInv _ (fun a b ha => mgMatchStep_rdinv _ _ a b ha)
      exact h

theorem lookupA_cons {β : Type} (a : String × β) (l : List (String × β)) (k : String) :
    lookupA (a :: l) k = if a.1 == k then some a.2 else lookupA l k := by
  unfold lookupA
  rw [List.find?_cons]
  cases h : (a.1 == k) <;> simp [h]

theorem filterRealistic_pairwise (v : List ℚ) (h : v.Nodup) :
    List.Pairwise (· < ·) (filterRealisticDoses (sortQ v)) := by
  unfold filterRealisticDoses
  split
  · exact List.Pairwise.nil
  · have hperm1 : (sortQ v).Perm v := List.perm_insertionSort _ v
    have hnd1 : (sortQ v).Nodup := hperm1.nodup_iff.mpr h
    have hperm2 : (sortQ (sortQ v)).Perm (sortQ v) := List.perm_insertionSort _ _
    have hnd2 : (sortQ (sortQ v)).Nodup := hperm2.nodup_iff.mpr hnd1
    have hsort : (sortQ (sortQ v)).Sorted (· ≤ ·) := List.sorted_insertionSort _ _
    have hlt : (sortQ (sortQ v)).Pairwise (· < ·) := hsort.lt_of_le hnd2
    exact hlt.sublist (List.Sublist.trans (List.take_sublist _ _) (List.drop_sublist _ _))

theorem lookup_filtered (l : List (String × List ℚ)) (h : ∀ kv ∈ l, kv.2.Nodup)
    (r : String) (out : List ℚ)
    (hl : lookupA (l.filterMap (fun kv => if kv.2.isEmpty then none
      else some (kv.1, filterRealisticDoses (sortQ kv.2)))) r = some out) :
    List.Pairwise (· < ·) out := by
  induction l with
  | nil => simp [lookupA] at hl
  | cons kv l ih =>
    rw [List.filterMap_cons] at hl
    by_cases he : kv.2.isEmpty = true
    · rw [if_pos he] at hl
      exact ih (fun kv2 h2 => h kv2 (List.mem_cons_of_mem _ h2)) hl
    · rw [if_neg he] at hl
      have hl2 : lookupA ((kv.1, filterRealisticDoses (sortQ kv.2)) ::
          l.filterMap (fun kv => if kv.2.isEmpty then none
            else some (kv.1, filterRealisticDoses (sortQ kv.2)))) r = some out := hl
      rw [lookupA_cons] at hl2
      by_cases hk : (kv.1 == r) = true
      · rw [if_pos hk] at hl2
        have hout : out = filterRealisticDoses (sortQ kv.2) := by
          cases hl2
          rfl
        rw [hout]
        exact filterRealistic_pairwise kv.2 (h kv (by simp))
      · rw [if_neg hk] at hl2
        exact ih (fun kv2 h2 => h kv2 (List.mem_cons_of_mem _ h2)) hl2

/-- Claim C6: for every input text, every per-route fixed-mg dose list in
the extraction output (`route_doses`) is strictly increasing — sorted with
no duplicates — after the 10th/90th-percentile outlier trimming. -/
theorem c6_route_doses_strictly_sorted (text : String) (r : String) (l : List ℚ)
    (h : lookupA (extractDosageInfo text).routeDoses r = some l) :
    List.Pairwise (· < ·) l := by
  have hinv : RDInv ((splitAfter ['\n', '.'] text.data).foldl processSentence
      emptyExtState) := by
    apply foldl_preserve RDInv processSentence processSentence_rdinv
    intro kv hkv
    simp [emptyExtState] at hkv
  exact lookup_filtered _ hinv r l h

set_option maxRecDepth 20000 in
/-- Witness for C6: "Take 100 mg or 200 mg orally." stores the strictly
increasing list `[100, 200]` under the "Oral" route. -/
theorem c6_route_doses_strictly_sorted_witness :
    lookupA (extractDosageInfo "Take 100 mg or 200 mg orally.").routeDoses "Oral" =
      some [100, 200] ∧ List.Pairwise (· < ·) ([100, 200] : List ℚ) :=
  ⟨by with_unfolding_all decide,
   c6_route_doses_strictly_sorted "Take 100 mg or 200 mg orally." "Oral" [100, 200]
     (by with_unfolding_all decide)⟩

/-! ## Claim C5: route attribution of numeric matches -/

theorem nearFirst_none (L0 : List (Nat × String)) (m : Nat × String)
    (h : NearFirstInv L0 none) : NearFirstInv (L0 ++ [m]) (some m) := by
  have hL0 : L0 = [] := h
  subst hL0
  exact ⟨by simp, by simp⟩

theorem nearFirst_some_new (L0 : List (Nat × String)) (f m : Nat × String)
    (h : NearFirstInv L0 (some f)) (hlt : m.1 < f.1) :
    NearFirstInv (L0 ++ [m]) (some m) := by
  obtain ⟨hf, hmin⟩ := h
  refine ⟨by simp, fun x hx => ?_⟩
  rcases List.mem_append.mp hx with hx | hx
  · exact Nat.le_of_lt (Nat.lt_of_lt_of_le hlt (hmin x hx))
  · rw [List.mem_singleton] at hx
    subst hx
    exact Nat.le_refl _

theorem nearFirst_some_keep (L0 : List (Nat × String)) (f m : Nat × String)
    (h : NearFirstInv L0 (some f)) (hge : ¬m.1 < f.1) :
    NearFirstInv (L0 ++ [m]) (some f) := by
  obtain ⟨hf, hmin⟩ := h
  refine ⟨List.mem_append_left _ hf, fun x hx => ?_⟩
  rcases List.mem_append.mp hx with hx | hx
  · exact hmin x hx
  · rw [List.mem_singleton] at hx
    subst hx
    exact Nat.le_of_not_lt hge

theorem nearBest_in_none (idx : Nat) (L0 : List (Nat × String)) (m : Nat × String)
    (h : NearBestInv idx L0 none) (hmi : m.1 ≤ idx) :
    NearBestInv idx (L0 ++ [m]) (some m) := by
  refine ⟨List.mem_append_right _ (by simp), hmi, fun x hx hxle => ?_⟩
  rcases List.mem_append.mp hx with hx | hx
  · exact absurd hxle (Nat.not_le.mpr (h x hx))
  · rw [List.mem_singleton] at hx
    subst hx
    exact Nat.le_refl _

theorem nearBest_in_new (idx : Nat) (L0 : List (Nat × String)) (b m : Nat × String)
    (h : NearBestInv idx L0 (some b)) (hmi : m.1 ≤ idx) (hlt : b.1 < m.1) :
    NearBestInv idx (L0 ++ [m]) (some m) := by
  obtain ⟨hb, hble, hmax⟩ := h
  refine ⟨List.mem_append_right _ (by simp), hmi, fun x hx hxle => ?_⟩
  rcases List.mem_append.mp hx with hx | hx
  · exact Nat.le_of_lt (Nat.lt_of_le_of_lt (hmax x hx hxle) hlt)
  · rw [List.mem_singleton] at hx
    subst hx
    exact Nat.le_refl _

theorem nearBest_in_keep (idx : Nat) (L0 : List (Nat × String)) (b m : Nat × String)
    (h : NearBestInv idx L0 (some b)) (hge : ¬b.1 < m.1) :
    NearBestInv idx (L0 ++ [m]) (some b) := by
  obtain ⟨hb, hble, hmax⟩ := h
  refine ⟨List.mem_append_left _ hb, hble, fun x hx hxle => ?_⟩
  rcases List.mem_append.mp hx with hx | hx
  · exact hmax x hx hxle
  · rw [List.mem_singleton] at hx
    subst hx
    exact Nat.le_of_not_lt hge

theorem nearBest_out_none (idx : Nat) (L0 : List (Nat × String)) (m : Nat × String)
    (h : NearBestInv idx L0 none) (hmi : ¬m.1 ≤ idx) :
    NearBestInv idx (L0 ++ [m]) none := by
  intro x hx
  rcases List.mem_append.mp hx with hx | hx
  · exact h x hx
  · rw [List.mem_singleton] at hx
    subst hx
    exact Nat.lt_of_not_le hmi

theorem nearBest_out_some (idx : Nat) (L0 : List (Nat × String)) (b m : Nat × String)
    (h : NearBestInv idx L0 (some b)) (hmi : ¬m.1 ≤ idx) :
    NearBestInv idx (L0 ++ [m]) (some b) := by
  obtain ⟨hb, hble, hmax⟩ := h
  refine ⟨List.mem_append_left _ hb, hble, fun x hx hxle => ?_⟩
  rcases List.mem_append.mp hx with hx | hx
  · exact hmax x hx hxle
  · rw [List.mem_singleton] at hx
    subst hx
    exact absurd hxle hmi

theorem nearStep_foldl_inv (idx : Nat) (L : List (Nat × String)) :
    ∀ (L0 : List (Nat × String)) (st : Option (Nat × String) × Option (Nat × String)),
      NearFirstInv L0 st.1 → NearBestInv idx L0 st.2 →
      NearFirstInv (L0 ++ L) (L.foldl (nearStep idx) st).1 ∧
        NearBestInv idx (L0 ++ L) (L.foldl (nearStep idx) st).2 := by
  induction L with
  | nil =>
    intro L0 st h1 h2
    rw [List.foldl_nil, List.append_nil]
    exact ⟨h1, h2⟩
  | cons m L ih =>
    intro L0 st h1 h2
    rw [List.foldl_cons]
    have h1' : NearFirstInv (L0 ++ [m]) (nearStep idx st m).1 := by
      cases hs : st.1 with
      | none =>
        rw [hs] at h1
        show NearFirstInv (L0 ++ [m])
          (match st.1 with
           | none => some m
           | some f => if m.1 < f.1 then some m else some f)
        rw [hs]
        exact nearFirst_none L0 m h1
      | some f =>
        rw [hs] at h1
        show NearFirstInv (L0 ++ [m])
          (match st.1 with
           | none => some m
           | some f => if m.1 < f.1 then some m else some f)
        rw [hs]
        show NearFirstInv (L0 ++ [m]) (if m.1 < f.1 then some m else some f)
        by_cases hlt : m.1 < f.1
        · rw [if_pos hlt]
          exact nearFirst_some_new L0 f m h1 hlt
        · rw [if_neg hlt]
          exact nearFirst_some_keep L0 f m h1 hlt
    have h2' : NearBestInv idx (L0 ++ [m]) (nearStep idx st m).2 := by
      show NearBestInv idx (L0 ++ [m])
        (if m.1 ≤ idx then
          match st.2 with
          | none => some m
          | some b => if b.1 < m.1 then some m else some b
        else st.2)
      by_cases hmi : m.1 ≤ idx
      · rw [if_pos hmi]
        cases hs : st.2 with
        | none =>
          rw [hs] at h2
          exact nearBest_in_none idx L0 m h2 hmi
        | some b =>
          rw [hs] at h2
          show NearBestInv idx (L0 ++ [m]) (if b.1 < m.1 then some m else some b)
          by_cases hlt : b.1 < m.1
          · rw [if_pos hlt]
            exact nearBest_in_new idx L0 b m h2 hmi hlt
          · rw [if_neg hlt]
            exact nearBest_in_keep idx L0 b m h2 hlt
      · rw [if_neg hmi]
        cases hs : st.2 with
        | none =>
          rw [hs] at h2
          exact nearBest_out_none idx L0 m h2 hmi
        | some b =>
          rw [hs] at h2
          exact nearBest_out_some idx L0 b m h2 hmi
    have hmain := ih (L0 ++ [m]) (nearStep idx st m) h1' h2'
    rw [List.append_assoc, List.singleton_append] at hmain
    exact hmain

theorem detectRouteNear_inv (s : List Char) (idx : Nat) :
    NearFirstInv (routeMentionsOf s)
        (((routeMentionsOf s).foldl (nearStep idx) (none, none)).1) ∧
      NearBestInv idx (routeMentionsOf s)
        (((routeMentionsOf s).foldl (nearStep idx) (none, none)).2) := by
  have hmain := nearStep_foldl_inv idx (routeMentionsOf s) [] (none, none)
    rfl (fun x hx => absurd hx (List.not_mem_nil x))
  rw [List.nil_append] at hmain
  exact hmain

theorem detectRouteNear_eq (s : List Char) (idx : Nat) :
    detectRouteNear s idx =
      match ((routeMentionsOf s).foldl (nearStep idx) (none, none)).2 with
      | some b => some b.2
      | none =>
        (((routeMentionsOf s).foldl (nearStep idx) (none, none)).1).map (fun f => f.2) := rfl

/-- Claim C5 (amended): a numeric match at character index `i` of a cleaned
sentence is attributed to the latest route mention starting at or before
`i` in the sentence; if no mention starts at or before `i`, to the
earliest route mention in the sentence; if the sentence has no route
mention at all, to the sentence loop's carried route context (the route
last detected in the current or an earlier sentence), and only when that
context is also absent to "Unspecified". -/
theorem c5_route_attribution (s : List Char) (i : Nat) (ctx : Option String) :
    (∃ m, m ∈ routeMentionsOf s ∧ m.1 ≤ i ∧ routeAttrib s i ctx = m.2 ∧
        ∀ m2 ∈ routeMentionsOf s, m2.1 ≤ i → m2.1 ≤ m.1) ∨
      ((∀ m ∈ routeMentionsOf s, i < m.1) ∧
        ∃ m, m ∈ routeMentionsOf s ∧ routeAttrib s i ctx = m.2 ∧
          ∀ m2 ∈ routeMentionsOf s, m.1 ≤ m2.1) ∨
      (routeMentionsOf s = [] ∧ routeAttrib s i ctx = ctx.getD "Unspecified") := by
  obtain ⟨h1, h2⟩ := detectRouteNear_inv s i
  have hd := detectRouteNear_eq s i
  cases hb : ((routeMentionsOf s).foldl (nearStep i) (none, none)).2 with
  | some b =>
    rw [hb] at h2 hd
    obtain ⟨hmem, hle, hmax⟩ := h2
    have hra : routeAttrib s i ctx = b.2 := by
      unfold routeAttrib
      rw [hd]
      rfl
    exact Or.inl ⟨b, hmem, hle, hra, fun m2 hm2 hm2le => hmax m2 hm2 hm2le⟩
  | none =>
    rw [hb] at h2 hd
    cases hf : ((routeMentionsOf s).foldl (nearStep i) (none, none)).1 with
    | some f =>
      rw [hf] at h1 hd
      obtain ⟨hmem, hmin⟩ := h1
      have hra : routeAttrib s i ctx = f.2 := by
        unfold routeAttrib
        rw [hd]
        rfl
      exact Or.inr (Or.inl ⟨h2, f, hmem, hra, hmin⟩)
    | none =>
      rw [hf] at h1 hd
      have hra : routeAttrib s i ctx = ctx.getD "Unspecified" := by
        unfold routeAttrib
        rw [hd]
        cases ctx <;> rfl
      exact Or.inr (Or.inr ⟨h1, hra⟩)

set_option maxRecDepth 20000 in
/-- Counterexample to the literal reading of claim C5: in
"Oral use. Take 100 mg daily." the second sentence contains no route
mention at all, yet its 100 mg value is attributed to "Oral" — the route
context carried over from the first sentence — and no "Unspecified" entry
is created. -/
theorem c5_route_context_counterexample :
    routeMentionsOf (("Take 100 mg daily.").data) = [] ∧
      (extractDosageInfo "Oral use. Take 100 mg daily.").routeDoses = [("Oral", [100])] := by
  constructor
  · decide
  · with_unfolding_all decide
